import Mathlib

/-!
Verification of the SERUtils SER-movie codec (src/src/ser.c, src/src/ser.h,
src/serutils.c) against its natural-language specification.

The C code is shallowly embedded: machine integers become `Nat` with an
explicit `% 2^w` wherever the C arithmetic can wrap, files become lists of
byte values, and fallible C functions (returning NULL / 0 with an error
message) become `Except`/`Option` values whose error constructors mirror the
distinct error messages of the source.  The host is modelled as
little-endian (the `IS_BIG_ENDIAN` byte-swap branches of the source are
identity on a little-endian host, which is the configuration the on-disk
format is defined against).
-/

namespace SERUtils

/-! ### Byte-level helpers -/

/-- Value of the little-endian 16-bit word at byte offset `off`
(the C idiom is a `*(uint16_t *)` load on a little-endian host;
reads past the end of the list yield 0, matching a zero-initialised
destination buffer on a short read). -/
def readUInt16LE (data : List Nat) (off : Nat) : Nat :=
  data.getD off 0 + 256 * data.getD (off + 1) 0

/-- Value of the little-endian 32-bit word at byte offset `off`. -/
def readUInt32LE (data : List Nat) (off : Nat) : Nat :=
  data.getD off 0 + 256 * data.getD (off + 1) 0 +
  65536 * data.getD (off + 2) 0 + 16777216 * data.getD (off + 3) 0

/-- Value of the little-endian 64-bit word at byte offset `off`.
Missing trailing bytes count as 0: the C read loop leaves the
zero-initialised high bytes of the destination untouched on a short read. -/
def readUInt64LE (data : List Nat) (off : Nat) : Nat :=
  data.getD off 0 + 256 * data.getD (off + 1) 0 +
  65536 * data.getD (off + 2) 0 + 16777216 * data.getD (off + 3) 0 +
  4294967296 * data.getD (off + 4) 0 + 1099511627776 * data.getD (off + 5) 0 +
  281474976710656 * data.getD (off + 6) 0 +
  72057594037927936 * data.getD (off + 7) 0

/-- Little-endian byte encoding of a 32-bit value. -/
def u32LE (n : Nat) : List Nat :=
  [n % 256, n / 256 % 256, n / 65536 % 256, n / 16777216 % 256]

/-- Little-endian byte encoding of a 64-bit value. -/
def u64LE (n : Nat) : List Nat :=
  [n % 256, n / 256 % 256, n / 65536 % 256, n / 16777216 % 256,
   n / 4294967296 % 256, n / 1099511627776 % 256,
   n / 281474976710656 % 256, n / 72057594037927936 % 256]

/-- `swapint16` of ser.c: exchange the two bytes of a 16-bit value
(the value is interpreted through its little-endian byte image). -/
def swapint16 (v : Nat) : Nat :=
  (v / 256) % 256 + 256 * (v % 256)

/-- Conversion of a `uint32_t` value to a C `int`
(two's-complement wraparound, as on every supported target). -/
def cIntOfUInt32 (n : Nat) : Int :=
  if n < 2147483648 then (n : Int) else (n : Int) - 4294967296

/-- Conversion of a `uint64_t` value to a C `int64_t`
(two's-complement wraparound). -/
def cInt64OfUInt64 (n : Nat) : Int :=
  if n < 9223372036854775808 then (n : Int) else (n : Int) - 18446744073709551616

/-- Store of a C `int` value into a `uint32_t` lvalue (reduction mod 2^32). -/
def cUInt32OfInt (i : Int) : Nat :=
  (i % 4294967296).toNat

/-! ### The SER movie header (`SERHeader`, ser.h)

The packed C struct is 178 bytes: 14 id bytes, seven `uint32_t` fields,
three 40-byte text fields and two `uint64_t` timestamps. -/

structure SERHeader where
  sFileID : List Nat
  uiLuID : Nat
  uiColorID : Nat
  uiLittleEndian : Nat
  uiImageWidth : Nat
  uiImageHeight : Nat
  uiPixelDepth : Nat
  uiFrameCount : Nat
  sObserver : List Nat
  sInstrument : List Nat
  sTelescope : List Nat
  ulDateTime : Nat
  ulDateTime_UTC : Nat
deriving DecidableEq, Repr

/-- `sizeof(SERHeader)` with the packed layout: 14 + 7*4 + 3*40 + 2*8 = 178. -/
def SERHeaderSize : Nat := 178

/-- The byte values of the fixed magic string "LUCAM-RECORDER" (SER_FILE_ID). -/
def serFileId : List Nat :=
  [76, 85, 67, 65, 77, 45, 82, 69, 67, 79, 82, 68, 69, 82]

/-- Pad or truncate a byte list to exactly `n` bytes (fixed-width text field). -/
def fixBytes (n : Nat) (l : List Nat) : List Nat :=
  (l ++ List.replicate n 0).take n

/-- Decode the 178 header bytes into the parsed header, little-endian
fields, exactly as `parseHeader` leaves them in memory on a little-endian
host. -/
def decodeHeader (b : List Nat) : SERHeader :=
  { sFileID := b.take 14
    uiLuID := readUInt32LE b 14
    uiColorID := readUInt32LE b 18
    uiLittleEndian := readUInt32LE b 22
    uiImageWidth := readUInt32LE b 26
    uiImageHeight := readUInt32LE b 30
    uiPixelDepth := readUInt32LE b 34
    uiFrameCount := readUInt32LE b 38
    sObserver := (b.drop 42).take 40
    sInstrument := (b.drop 82).take 40
    sTelescope := (b.drop 122).take 40
    ulDateTime := readUInt64LE b 162
    ulDateTime_UTC := readUInt64LE b 170 }

/-- The 178 bytes of the in-memory header struct, as `writeHeaderToVideo`
writes them on a little-endian host. -/
def encodeHeader (h : SERHeader) : List Nat :=
  fixBytes 14 h.sFileID ++ u32LE h.uiLuID ++ u32LE h.uiColorID ++
  u32LE h.uiLittleEndian ++ u32LE h.uiImageWidth ++ u32LE h.uiImageHeight ++
  u32LE h.uiPixelDepth ++ u32LE h.uiFrameCount ++
  fixBytes 40 h.sObserver ++ fixBytes 40 h.sInstrument ++
  fixBytes 40 h.sTelescope ++ u64LE h.ulDateTime ++ u64LE h.ulDateTime_UTC

/-! ### Geometry calculator (`SERGetNumberOfPlanes`, `SERGetBytesPerPixel`,
`SERGetFrameSize`, `SERGetFrameOffset`, `SERGetTrailerOffset` of ser.c;
serutils.c contains byte-identical copies named `getNumberOfPlanes`,
`getBytesPerPixel`, `getFrameSize`, `getFrameOffset`, `getTrailerOffset`). -/

/-- COLOR_RGB, the first of the three-channel colour ids. -/
def COLOR_RGB : Nat := 100

/-- COLOR_BGR. -/
def COLOR_BGR : Nat := 101

def SERGetNumberOfPlanes (h : SERHeader) : Nat :=
  if h.uiColorID ≥ COLOR_RGB then 3 else 1

def SERGetBytesPerPixel (h : SERHeader) : Nat :=
  if h.uiPixelDepth < 1 then 0
  else if h.uiPixelDepth ≤ 8 then SERGetNumberOfPlanes h
  else 2 * SERGetNumberOfPlanes h

/-- `SERGetFrameSize`: `uiImageWidth * uiImageHeight * bytes_per_px`.
The C multiplication is carried out in `unsigned int` (32 bits), hence
the explicit reduction mod 2^32. -/
def SERGetFrameSize (h : SERHeader) : Nat :=
  (h.uiImageWidth * h.uiImageHeight * SERGetBytesPerPixel h) % 4294967296

/-- `SERGetFrameOffset`: `sizeof(SERHeader) + frame_idx * SERGetFrameSize`. -/
def SERGetFrameOffset (h : SERHeader) (frame_idx : Nat) : Nat :=
  SERHeaderSize + frame_idx * SERGetFrameSize h

/-- `SERGetTrailerOffset`: frame offset of index `uiFrameCount`. -/
def SERGetTrailerOffset (h : SERHeader) : Nat :=
  SERGetFrameOffset h h.uiFrameCount

/-- Frame byte size as the specification words it (section 4.2):
`width × height × planeCount × (1 if depth ≤ 8 else 2)`.
This is the spec-side formula that claim C3 compares against the code. -/
def specFrameByteSize (h : SERHeader) : Nat :=
  h.uiImageWidth * h.uiImageHeight *
    (if h.uiColorID ≥ 100 then 3 else 1) *
    (if h.uiPixelDepth ≤ 8 then 1 else 2)

/-! ### Bit-depth normalisation (`getTruncatedUInt16`, ser.c lines 131-136) -/

/-- `getTruncatedUInt16(value, pixel_size)`: identity for `pixel_size >= 16`,
otherwise `(value << lshift) + (value >> rshift)` with `lshift = 16 -
pixel_size` and `rshift = pixel_size - lshift`, truncated to `uint16_t`
by the return type.  (`SERGetFramePixel` lines 329-366 inlines the same
formula.)  Only called with `pixel_size >= 9` in the source. -/
def getTruncatedUInt16 (value pixel_size : Nat) : Nat :=
  if pixel_size ≥ 16 then value
  else ((value <<< (16 - pixel_size)) + (value >>> (pixel_size - (16 - pixel_size)))) % 65536

/-- The normalisation formula as the specification words it (section 4.4):
`((value << (16-depth)) | (value >> (depth - (16-depth)))) mod 2^16`,
i.e. with a bitwise OR instead of the code's addition. -/
def specRotateNormalize (depth value : Nat) : Nat :=
  ((value <<< (16 - depth)) ||| (value >>> (depth - (16 - depth)))) % 65536

/-! ### Warning counting (`SERCountMovieWarnings`, ser.c lines 520-527;
serutils.c `countMovieWarnings` is a byte-identical copy) -/

/-- WARN_BAD_FRAME_DATES = 1 << 4 (ser.h line 55). -/
def WARN_BAD_FRAME_DATES : Nat := 16

/-- `SERCountMovieWarnings(warnings)`: loops `i` from 0 to
`sizeof(warnings)` (= sizeof(int) = 4, the BYTE size of int, not its bit
width) and counts the set bits `warnings & (1 << i)`. -/
def SERCountMovieWarnings (warnings : Nat) : Nat :=
  (List.range 4).foldl
    (fun count i => if warnings &&& (1 <<< i) ≠ 0 then count + 1 else count) 0

/-! ### The movie handle (`SERMovie`, ser.h)

The open `FILE *` is modelled by the byte list of the underlying file;
`filesize` is the value recorded by `SEROpenMovie` (equal to the byte
count of the file at open time). -/

structure SERMovie where
  header : SERHeader
  fileBytes : List Nat
  filesize : Nat
  invert_endianness : Bool
  warnings : Nat
  duration : Nat
  firstFrameDate : Nat
  lastFrameDate : Nat
deriving DecidableEq, Repr

/-- The `SERIsBigEndian` macro (ser.h lines 76-78): effective pixel-data
byte order, honouring the header field's historically inverted meaning
unless `invert_endianness` is set. -/
def SERIsBigEndian (movie : SERMovie) : Bool :=
  (movie.invert_endianness && movie.header.uiLittleEndian == 0) ||
  (!movie.invert_endianness && movie.header.uiLittleEndian == 1)

/-- `SERGetFrameDate` (ser.c lines 483-501; serutils.c `readFrameDate` is a
byte-identical copy): 0 when the index is at or beyond the frame count,
otherwise the 64-bit little-endian word at `trailerOffset + 8*idx`.
Bytes the file does not contain read as 0, exactly as the C read loop
leaves the zero-initialised `date` variable on a short or failed read. -/
def SERGetFrameDate (movie : SERMovie) (idx : Nat) : Nat :=
  if idx ≥ movie.header.uiFrameCount then 0
  else readUInt64LE movie.fileBytes (SERGetTrailerOffset movie.header + 8 * idx)

/-! ### Single-frame reading (`SERGetFrame`, ser.c lines 215-279) -/

/-- A decoded frame (`SERFrame`, ser.h).  The `unixtime` field of the C
struct is omitted: it is derived through C `double` arithmetic
(`SERVideoTimeToUnixtime`) and is not part of any claim about this
function; every other field is modelled. -/
structure SERFrame where
  id : Nat
  index : Nat
  datetime : Nat
  littleEndian : Nat
  pixelDepth : Nat
  colorID : Nat
  width : Nat
  height : Nat
  size : Nat
  data : List Nat
deriving DecidableEq, Repr

/-- The distinct failure messages of `SERGetFrame`. -/
inductive SERGetFrameError
  | indexBeyond
  | missingFrame
  | incompleteFrame
  | shortRead
deriving DecidableEq, Repr

/-- `SERGetFrame(movie, frame_idx)`: bounds check against the header frame
count, then the `filesize < offset_start` (missing frame) and
`filesize < offset_end` (incomplete frame) checks, then a read of exactly
`frame->size` bytes which fails if fewer are available. -/
def SERGetFrame (movie : SERMovie) (frame_idx : Nat) :
    Except SERGetFrameError SERFrame :=
  if frame_idx ≥ movie.header.uiFrameCount then .error .indexBeyond
  else
    let size := SERGetFrameSize movie.header
    let offset_start := SERHeaderSize + frame_idx * size
    let offset_end := offset_start + size
    if movie.filesize < offset_start then .error .missingFrame
    else if movie.filesize < offset_end then .error .incompleteFrame
    else
      let data := (movie.fileBytes.drop offset_start).take size
      if data.length ≠ size then .error .shortRead
      else .ok {
        id := frame_idx + 1
        index := frame_idx
        datetime := SERGetFrameDate movie frame_idx
        littleEndian := movie.header.uiLittleEndian
        pixelDepth := movie.header.uiPixelDepth
        colorID := movie.header.uiColorID
        width := movie.header.uiImageWidth
        height := movie.header.uiImageHeight
        size := size
        data := data }

/-! ### Single-pixel decoding (`SERGetFramePixel`, ser.c lines 287-369) -/

/-- The C pixel value union. -/
inductive SERPixelValue
  | int8 (v : Nat)
  | int16 (v : Nat)
  | rgb8 (r g b : Nat)
  | rgb16 (r g b : Nat)
deriving DecidableEq, Repr

/-- The in-function bit-depth normalisation of `SERGetFramePixel`
(lines 332-341): `(val << lshift) + (val >> rshift)` truncated to 16 bits
when the depth is below 16, identity otherwise. -/
def serNormalize16 (depth val : Nat) : Nat :=
  if depth < 16 then
    ((val <<< (16 - depth)) + (val >>> (depth - (16 - depth)))) % 65536
  else val

/-- `SERGetFramePixel(movie, frame, x, y, big_endian, value)`.  Returns
`none` where the C source returns 0 (coordinates out of bounds; the
`frame->data == NULL` check has no counterpart because modelled frames
always carry their bytes).  For three-channel 16-bit frames the C source
advances its `char *` cursor by ONE byte between the three 16-bit channel
loads (`data++` on a `char *`), so the channel words are read at byte
offsets `offset`, `offset+1` and `offset+2`; the model reproduces this.
Channel variables left uninitialised by the C source (colour ids above
COLOR_BGR) are modelled as 0. -/
def SERGetFramePixel (movie : SERMovie) (frame : SERFrame) (x y : Nat)
    (big_endian : Bool) : Option SERPixelValue :=
  if x ≥ frame.width ∨ y ≥ frame.height then none
  else
    let channels := if frame.colorID ≥ COLOR_RGB then 3 else 1
    let channel_size := if frame.pixelDepth ≤ 8 then 1 else 2
    let bytes_per_px := channels * channel_size
    let offset := y * frame.width * bytes_per_px + x * bytes_per_px
    let data := frame.data
    let same_endianess := big_endian = SERIsBigEndian movie
    if channel_size = 1 then
      if frame.colorID = COLOR_RGB then
        some (.rgb8 (data.getD offset 0) (data.getD (offset + 1) 0)
          (data.getD (offset + 2) 0))
      else if frame.colorID = COLOR_BGR then
        some (.rgb8 (data.getD (offset + 2) 0) (data.getD (offset + 1) 0)
          (data.getD offset 0))
      else if frame.colorID ≥ COLOR_RGB then some (.rgb8 0 0 0)
      else some (.int8 (data.getD offset 0))
    else
      if frame.colorID < COLOR_RGB then
        let raw := readUInt16LE data offset
        let val := if ¬ same_endianess then swapint16 raw else raw
        some (.int16 (serNormalize16 frame.pixelDepth val))
      else
        let c0 := readUInt16LE data offset
        let c1 := readUInt16LE data (offset + 1)
        let c2 := readUInt16LE data (offset + 2)
        let rgb : Nat × Nat × Nat :=
          if frame.colorID = COLOR_RGB then (c0, c1, c2)
          else if frame.colorID = COLOR_BGR then (c2, c1, c0)
          else (0, 0, 0)
        let r := if ¬ same_endianess then swapint16 rgb.1 else rgb.1
        let g := if ¬ same_endianess then swapint16 rgb.2.1 else rgb.2.1
        let b := if ¬ same_endianess then swapint16 rgb.2.2 else rgb.2.2
        some (.rgb16 (serNormalize16 frame.pixelDepth r)
          (serNormalize16 frame.pixelDepth g)
          (serNormalize16 frame.pixelDepth b))

/-! ### User frame-range resolution (`determineFrameRange`,
serutils.c lines 1256-1279) -/

/-- A frame range (serutils.c `SERFrameRange`); the C field names `from`
and `to` are Lean keywords, so they appear here as `rfrom` / `rto`. -/
structure SERFrameRange where
  rfrom : Nat
  rto : Nat
  count : Nat
deriving DecidableEq, Repr

/-- The distinct failure messages of `determineFrameRange`, plus the
abort of the `assert` inside the `updateRangeCount` macro. -/
inductive FrameRangeError
  | firstBeyond
  | lastBeyond
  | lastBeforeFirst
  | assertFailed
deriving DecidableEq, Repr

/-- `determineFrameRange(header, range, from, to, count, err)`.  The C
arguments are `int`s; `tot` is the frame count converted to `int`.  The
final stores into the `uint32_t` range fields reduce mod 2^32 (negative
resolved endpoints wrap), and `updateRangeCount` asserts `to >= from` on
the stored (unsigned) values. -/
def determineFrameRange (header : SERHeader) (ffrom fto fcount : Int) :
    Except FrameRangeError SERFrameRange :=
  let tot : Int := cIntOfUInt32 (header.uiFrameCount % 4294967296)
  let ffrom := if ffrom < 0 then tot + ffrom else ffrom
  if ffrom ≥ tot then .error .firstBeyond
  else
    let fto := if fcount > 0 then ffrom + fcount - 1
               else if fto < 0 then tot + fto else fto
    if fto ≥ tot then .error .lastBeyond
    else if fto < ffrom then .error .lastBeforeFirst
    else
      let f := cUInt32OfInt ffrom
      let t := cUInt32OfInt fto
      if t < f then .error .assertFailed
      else .ok { rfrom := f, rto := t, count := (1 + (t - f)) % 4294967296 }

/-! ### Opening a movie (`SEROpenMovie`, ser.c lines 542-599) -/

/-- WARN_FILESIZE_MISMATCH = 1 << 0 (ser.h). -/
def WARN_FILESIZE_MISMATCH : Nat := 1

/-- WARN_INCOMPLETE_FRAMES = 1 << 1 (ser.h). -/
def WARN_INCOMPLETE_FRAMES : Nat := 2

/-- WARN_MISSING_TRAILER = 1 << 2 (ser.h). -/
def WARN_MISSING_TRAILER : Nat := 4

/-- WARN_INCOMPLETE_TRAILER = 1 << 3 (ser.h). -/
def WARN_INCOMPLETE_TRAILER : Nat := 8

/-- The two failure modes of `SEROpenMovie` after the file itself could be
opened: a failed header read and a magic mismatch. -/
inductive SEROpenError
  | readFailure
  | invalidFormat
deriving DecidableEq, Repr

/-- `SEROpenMovie(filepath)`, instrumented with the list of `(offset,
length)` data reads it issues on the file (each logical read appears
once; `fseek`/`ftell` are not reads).  Behaviour per source:
`parseHeader` reads the 178 header bytes from offset 0 and fails iff the
file has fewer; then the magic is checked with `strcmp(SER_FILE_ID,
header->sFileID)`, which succeeds only when the first 14 bytes equal the
magic AND byte 14 (the first byte of `uiLuID`, where `strcmp` runs past
the unterminated 14-byte field) is 0; on mismatch the movie is closed and
NULL returned with no further reads.  Otherwise the warning bits,
first/last frame dates (each a conditional 8-byte trailer read) and the
duration (a `uint32_t` store) are computed. -/
def SEROpenMovie (file : List Nat) :
    Except SEROpenError SERMovie × List (Nat × Nat) :=
  let headerRead : List (Nat × Nat) := [(0, SERHeaderSize)]
  if file.length < SERHeaderSize then (.error .readFailure, headerRead)
  else
    let header := decodeHeader (file.take SERHeaderSize)
    if ¬ (file.take 14 = serFileId ∧ file.getD 14 0 = 0) then
      (.error .invalidFormat, headerRead)
    else
      let filesize := file.length
      let frame_c := header.uiFrameCount
      let trailer_offset := SERGetTrailerOffset header
      let expected_trailer_size := frame_c * 8
      if filesize < trailer_offset then
        (.ok { header := header, fileBytes := file, filesize := filesize,
               invert_endianness := false, warnings := WARN_INCOMPLETE_FRAMES,
               duration := 0, firstFrameDate := 0, lastFrameDate := 0 },
         headerRead)
      else
        let warns1 : Nat :=
          if ¬ (filesize > trailer_offset) then WARN_MISSING_TRAILER
          else if filesize - trailer_offset < expected_trailer_size then
            WARN_INCOMPLETE_TRAILER
          else 0
        let m0 : SERMovie :=
          { header := header, fileBytes := file, filesize := filesize,
            invert_endianness := false, warnings := warns1,
            duration := 0, firstFrameDate := 0, lastFrameDate := 0 }
        let firstFrameDate := SERGetFrameDate m0 0
        let lastIdx := (frame_c + 4294967296 - 1) % 4294967296
        let lastFrameDate := SERGetFrameDate m0 lastIdx
        let reads := headerRead ++
          (if 0 < frame_c then [(trailer_offset, 8)] else []) ++
          (if lastIdx < frame_c then [(trailer_offset + 8 * lastIdx, 8)] else [])
        if lastFrameDate > firstFrameDate then
          let m1 : SERMovie := { m0 with
            firstFrameDate := firstFrameDate,
            lastFrameDate := lastFrameDate,
            duration := ((lastFrameDate - firstFrameDate) / 10000000) % 4294967296 }
          (.ok m1, reads)
        else
          let m1 : SERMovie := { m0 with
            firstFrameDate := firstFrameDate,
            lastFrameDate := lastFrameDate,
            warnings := if warns1 &&& WARN_INCOMPLETE_TRAILER = 0 then
                warns1 ||| WARN_BAD_FRAME_DATES
              else warns1 }
          (.ok m1, reads)

/-! ### Frame-range extraction (`appendFrameToVideo` serutils.c lines
1390-1444, `extractFramesFromVideo` serutils.c lines 1446-1559) -/

/-- serutils.c `readFrameDate` is byte-identical to ser.c
`SERGetFrameDate`. -/
abbrev readFrameDate := SERGetFrameDate

/-- The distinct failure messages of the extraction path. -/
inductive ExtractError
  | invalidFrameSize
  | readFrameFailed
  | invalidFirstFrameDate
  | invalidFrameDate
deriving DecidableEq, Repr

/-- `appendFrameToVideo(video, srcmovie, frame_idx, err)`: fails on a zero
frame size, reads the frame's bytes at its offset (failing when fewer than
`frame_sz` bytes can be read) and appends them to the output; the returned
list is the bytes written.  (Write short-counts cannot occur in the list
model of the output file.) -/
def appendFrameToVideo (movie : SERMovie) (frame_idx : Nat) :
    Except ExtractError (List Nat) :=
  let frame_sz := SERGetFrameSize movie.header
  if frame_sz = 0 then .error .invalidFrameSize
  else
    let buffer := (movie.fileBytes.drop (SERGetFrameOffset movie.header frame_idx)).take frame_sz
    if buffer.length ≠ frame_sz then .error .readFrameFailed
    else .ok buffer

/-- The `for (i = 0; i < count; i++)` loop of `extractFramesFromVideo`:
for each frame index it appends the frame's raw bytes to the output and
collects the frame's trailer timestamp into the datetimes buffer, failing
on a zero timestamp. -/
def extractFramesLoop (movie : SERMovie) :
    Nat → Nat → Except ExtractError (List Nat × List Nat)
  | _, 0 => .ok ([], [])
  | idx, k + 1 =>
    match appendFrameToVideo movie idx with
    | .error e => .error e
    | .ok frame =>
      let datetime := readFrameDate movie idx
      if datetime = 0 then .error .invalidFrameDate
      else
        match extractFramesLoop movie (idx + 1) k with
        | .error e => .error e
        | .ok (frames, dates) => .ok (frame ++ frames, datetime :: dates)

/-- The UTC start-timestamp adjustment of `extractFramesFromVideo`
(lines 1466-1477): `utc_diff` is the `int64_t` value of the `uint64_t`
difference `ulDateTime_UTC - ulDateTime`; when it is positive and smaller
than the first frame date, it is subtracted from it. -/
def extractAdjustedUTC (h : SERHeader) (first_frame_date : Nat) : Nat :=
  let utc_diff : Int := cInt64OfUInt64
    ((h.ulDateTime_UTC % 18446744073709551616 + 18446744073709551616 -
      h.ulDateTime % 18446744073709551616) % 18446744073709551616)
  if utc_diff > 0 ∧ utc_diff < (first_frame_date : Int) then
    first_frame_date - utc_diff.toNat
  else first_frame_date

/-- `extractFramesFromVideo(movie, outputpath, range)`, returning the bytes
of the output container on success.  Modelled with an explicit output path
and overwrite enabled, so the filename-generation and prompt branches
(lines 1478-1492, which do not touch the output bytes) are skipped; the
`last_frame_date` read (line 1469) feeds only the generated filename and is
likewise omitted.  Per source: the duplicated header gets
`uiFrameCount = range->count` and its two start timestamps recomputed from
the first extracted frame's trailer timestamp; failure on a zero first
frame date; then the header bytes, each frame's raw bytes, and the trailer
of collected timestamps are written in that order. -/
def extractFramesFromVideo (movie : SERMovie) (range : SERFrameRange) :
    Except ExtractError (List Nat) :=
  let header := movie.header
  let first_frame_date := readFrameDate movie range.rfrom
  if first_frame_date = 0 then .error .invalidFirstFrameDate
  else
    let new_header : SERHeader := { header with
      uiFrameCount := range.count,
      ulDateTime := first_frame_date,
      ulDateTime_UTC := extractAdjustedUTC header first_frame_date }
    match extractFramesLoop movie range.rfrom range.count with
    | .error e => .error e
    | .ok (frames, dates) =>
      .ok (encodeHeader new_header ++ frames ++ (dates.map u64LE).flatten)

/-! ### Sample header used by concrete witnesses -/

/-- A small, well-formed mono 8-bit header: 2x2 pixels, 3 frames. -/
def sampleHeader : SERHeader :=
  { sFileID := serFileId, uiLuID := 0, uiColorID := 0, uiLittleEndian := 0
    uiImageWidth := 2, uiImageHeight := 2, uiPixelDepth := 8, uiFrameCount := 3
    sObserver := List.replicate 40 0, sInstrument := List.replicate 40 0
    sTelescope := List.replicate 40 0, ulDateTime := 0, ulDateTime_UTC := 0 }

/-! ### Claim C3 -/

/-- Claim C3: for every header of the data model (pixel depth between 1 and
16, frame byte size representable in the code's 32-bit arithmetic) and every
frame index, including `idx = frameCount`, the frame byte offset is
`headerSize (178) + idx * frameByteSize` with `frameByteSize =
width * height * planeCount * (1 if depth <= 8 else 2)`; consecutive offsets
differ by exactly one frame byte size, and the trailer offset is the offset
of frame index `frameCount`. -/
theorem C3_offset_determinism (h : SERHeader) (idx : Nat)
    (hdepth : 1 ≤ h.uiPixelDepth)
    (hfit : specFrameByteSize h < 4294967296) :
    SERGetFrameOffset h idx = 178 + idx * specFrameByteSize h ∧
    SERGetFrameOffset h (idx + 1) - SERGetFrameOffset h idx = SERGetFrameSize h ∧
    SERGetTrailerOffset h = SERGetFrameOffset h h.uiFrameCount := by
  have hsz : SERGetFrameSize h = specFrameByteSize h := by
    unfold specFrameByteSize at hfit ⊢
    unfold SERGetFrameSize SERGetBytesPerPixel SERGetNumberOfPlanes COLOR_RGB
    have h1 : ¬ (h.uiPixelDepth < 1) := by omega
    by_cases hc : h.uiColorID ≥ 100 <;> by_cases h8 : h.uiPixelDepth ≤ 8 <;>
      simp only [h1, hc, h8, if_true, if_false, ite_true, ite_false,
        Nat.mul_one] at hfit ⊢ <;>
      rw [Nat.mod_eq_of_lt] <;> omega
  refine ⟨?_, ?_, rfl⟩
  · unfold SERGetFrameOffset SERHeaderSize
    rw [hsz]
  · unfold SERGetFrameOffset SERHeaderSize
    generalize SERGetFrameSize h = fs
    rw [Nat.add_mul, Nat.one_mul]
    omega

/-- Witness for C3 at a concrete header and index. -/
theorem C3_offset_determinism_witness :
    SERGetFrameOffset sampleHeader 2 = 178 + 2 * specFrameByteSize sampleHeader ∧
    SERGetFrameOffset sampleHeader 3 - SERGetFrameOffset sampleHeader 2 =
      SERGetFrameSize sampleHeader ∧
    SERGetTrailerOffset sampleHeader = SERGetFrameOffset sampleHeader 3 :=
  C3_offset_determinism sampleHeader 2 (by decide) (by decide)

/-! ### Claim C4 -/

/-- Counterexample for claim C4: the code adds the two shifted values
(with carry) while the claim's formula ORs them; at depth 12 the stored
16-bit value 0x1FFF (= 8191, which has bits above the 12 significant ones)
gives 0x000F (= 15) in the code but 0xFFFF (= 65535) under the claimed
OR formula. -/
theorem C4_bit_depth_rotation_counterexample :
    getTruncatedUInt16 8191 12 = 15 ∧ specRotateNormalize 12 8191 = 65535 ∧
    getTruncatedUInt16 8191 12 ≠ specRotateNormalize 12 8191 := by
  refine ⟨by decide, by decide, by decide⟩

/-- Claim C4 (amended): for depths 9-15 the decoder's normalisation agrees
with the claimed rotate formula `((v << (16-d)) | (v >> (d-(16-d)))) mod
2^16` for every genuine depth-bit stored value `v < 2^d` (for values with
bits set above the depth the code's addition carries and differs); depth 16
is the identity; and the claim's concrete example 0x0ABC at depth 12
normalises to 0xABCA (= 43978). -/
theorem C4_bit_depth_rotation_amended :
    (∀ d v, 9 ≤ d → d < 16 → v < 2 ^ d →
      getTruncatedUInt16 v d = specRotateNormalize d v) ∧
    (∀ v, v < 65536 → getTruncatedUInt16 v 16 = v) ∧
    getTruncatedUInt16 2748 12 = 43978 := by
  refine ⟨?_, ?_, by decide⟩
  · intro d v h9 h16 hv
    unfold getTruncatedUInt16 specRotateNormalize
    have hlt : ¬ (d ≥ 16) := by omega
    simp only [hlt, if_false, ite_false]
    congr 1
    rw [Nat.shiftLeft_eq, Nat.shiftRight_eq_div_pow]
    have hb : v / 2 ^ (d - (16 - d)) < 2 ^ (16 - d) := by
      apply Nat.div_lt_of_lt_mul
      calc v < 2 ^ d := hv
        _ = 2 ^ (d - (16 - d)) * 2 ^ (16 - d) := by
              rw [← pow_add]
              congr 1
              omega
    rw [Nat.mul_comm v (2 ^ (16 - d))]
    exact Nat.mul_add_lt_is_or hb v
  · intro v _
    simp [getTruncatedUInt16]

/-- Witness for C4 (amended) at depth 12 and stored value 0x0ABC. -/
theorem C4_bit_depth_rotation_witness :
    getTruncatedUInt16 2748 12 = specRotateNormalize 12 2748 :=
  C4_bit_depth_rotation_amended.1 12 2748 (by decide) (by decide) (by decide)

/-! ### Claim C10 -/

/-- Claim C10: the warning counter counts set bits only at positions 0
through 3 (the loop bound is `sizeof(int)` = 4, the byte size of `int`),
so the BadFrameDateOrder flag at bit 4 is never counted and a movie whose
only warning is WARN_BAD_FRAME_DATES reports zero warnings. -/
theorem C10_warning_count_misses_bit4 (w : Nat) :
    SERCountMovieWarnings w =
      (if w.testBit 0 then 1 else 0) + (if w.testBit 1 then 1 else 0) +
      (if w.testBit 2 then 1 else 0) + (if w.testBit 3 then 1 else 0) ∧
    SERCountMovieWarnings WARN_BAD_FRAME_DATES = 0 := by
  refine ⟨?_, by decide⟩
  unfold SERCountMovieWarnings
  rcases h0 : w.testBit 0 <;> rcases h1 : w.testBit 1 <;>
    rcases h2 : w.testBit 2 <;> rcases h3 : w.testBit 3 <;>
    simp [List.range_succ, Nat.one_shiftLeft, Nat.and_two_pow,
      h0, h1, h2, h3]

/-! ### Claim C5 -/

/-- Claim C5: the effective pixel-data byte order is big-endian iff either
the invert option is off and the header's little-endian field equals 1, or
the invert option is on and the field equals 0; a 16-bit pixel read whose
requested endianness equals this effective endianness performs no byte
swap, one with the opposite requested endianness swaps the two bytes of
each 16-bit channel (shown for the mono channel and for all three RGB
channels), and the swap is an involution. -/
theorem C5_endianness_rule (movie : SERMovie) (frame : SERFrame)
    (x y : Nat) (big_endian : Bool) :
    (SERIsBigEndian movie = true ↔
      ((movie.invert_endianness = false ∧ movie.header.uiLittleEndian = 1) ∨
       (movie.invert_endianness = true ∧ movie.header.uiLittleEndian = 0))) ∧
    (x < frame.width → y < frame.height → 8 < frame.pixelDepth →
      frame.colorID < 100 →
      SERGetFramePixel movie frame x y big_endian =
        some (.int16 (serNormalize16 frame.pixelDepth
          (if big_endian = SERIsBigEndian movie
           then readUInt16LE frame.data (y * frame.width * 2 + x * 2)
           else swapint16 (readUInt16LE frame.data (y * frame.width * 2 + x * 2)))))) ∧
    (x < frame.width → y < frame.height → 8 < frame.pixelDepth →
      frame.colorID = 100 →
      SERGetFramePixel movie frame x y big_endian =
        some (.rgb16
          (serNormalize16 frame.pixelDepth
            (if big_endian = SERIsBigEndian movie
             then readUInt16LE frame.data (y * frame.width * 6 + x * 6)
             else swapint16 (readUInt16LE frame.data (y * frame.width * 6 + x * 6))))
          (serNormalize16 frame.pixelDepth
            (if big_endian = SERIsBigEndian movie
             then readUInt16LE frame.data (y * frame.width * 6 + x * 6 + 1)
             else swapint16 (readUInt16LE frame.data (y * frame.width * 6 + x * 6 + 1))))
          (serNormalize16 frame.pixelDepth
            (if big_endian = SERIsBigEndian movie
             then readUInt16LE frame.data (y * frame.width * 6 + x * 6 + 2)
             else swapint16 (readUInt16LE frame.data (y * frame.width * 6 + x * 6 + 2)))))) ∧
    (∀ v, v < 65536 → swapint16 (swapint16 v) = v) := by
  refine ⟨?_, ?_, ?_, ?_⟩
  · unfold SERIsBigEndian
    cases hi : movie.invert_endianness <;> simp [hi]
  · intro hx hy hd hc
    have hxy : ¬ (x ≥ frame.width ∨ y ≥ frame.height) := by omega
    have hcol : ¬ (100 ≤ frame.colorID) := by omega
    have hd8 : ¬ (frame.pixelDepth ≤ 8) := by omega
    simp [SERGetFramePixel, COLOR_RGB, hxy, hcol, hd8, ite_not]
  · intro hx hy hd hc
    have hxy : ¬ (x ≥ frame.width ∨ y ≥ frame.height) := by omega
    have hcol : 100 ≤ frame.colorID := by omega
    have hcol' : ¬ (frame.colorID < 100) := by omega
    have hd8 : ¬ (frame.pixelDepth ≤ 8) := by omega
    simp [SERGetFramePixel, COLOR_RGB, COLOR_BGR, hxy, hcol, hcol', hd8,
      hc, ite_not]
  · intro v hv
    unfold swapint16
    have e1 : v / 256 % 256 + 256 * (v % 256) = v / 256 + 256 * (v % 256) := by
      rw [Nat.mod_eq_of_lt (by omega : v / 256 < 256)]
    rw [e1]
    have e2 : (v / 256 + 256 * (v % 256)) / 256 = v % 256 := by
      rw [Nat.mul_comm 256 (v % 256),
        Nat.add_mul_div_right _ _ (by norm_num : (0:ℕ) < 256),
        Nat.div_eq_of_lt (by omega : v / 256 < 256), Nat.zero_add]
    have e3 : (v / 256 + 256 * (v % 256)) % 256 = v / 256 := by
      rw [Nat.mul_comm 256 (v % 256), Nat.add_mul_mod_self_right,
        Nat.mod_eq_of_lt (by omega : v / 256 < 256)]
    rw [e2, e3]
    omega

/-- A movie whose header declares big-endian pixel data (field value 1,
invert option off), used by the C5 witness. -/
def bigEndianMovie : SERMovie :=
  { header := { sampleHeader with uiLittleEndian := 1, uiPixelDepth := 12 }
    fileBytes := [], filesize := 0, invert_endianness := false
    warnings := 0, duration := 0, firstFrameDate := 0, lastFrameDate := 0 }

/-- A 1x1 mono 12-bit frame holding the stored word 0x0ABC, used by the
C5 witness. -/
def sampleFrame16 : SERFrame :=
  { id := 1, index := 0, datetime := 0, littleEndian := 1, pixelDepth := 12
    colorID := 0, width := 1, height := 1, size := 2, data := [188, 10] }

/-- Witness for C5: a little-endian read from a big-endian movie swaps the
channel bytes. -/
theorem C5_endianness_rule_witness :
    SERGetFramePixel bigEndianMovie sampleFrame16 0 0 false =
      some (.int16 (serNormalize16 sampleFrame16.pixelDepth
        (if false = SERIsBigEndian bigEndianMovie
         then readUInt16LE sampleFrame16.data (0 * sampleFrame16.width * 2 + 0 * 2)
         else swapint16 (readUInt16LE sampleFrame16.data (0 * sampleFrame16.width * 2 + 0 * 2))))) :=
  (C5_endianness_rule bigEndianMovie sampleFrame16 0 0 false).2.1
    (by decide) (by decide) (by decide) (by decide)

/-! ### Claim C7 -/

/-- Claim C7: reading frame `idx` fails for `idx >= frameCount`; with
`start = headerSize + idx*frameByteSize` and `end = start + frameByteSize`
it fails with the missing-frame error when `filesize < start`, with the
incomplete-frame error when `filesize < end`, and otherwise reads exactly
`frameByteSize` bytes and returns a frame whose metadata is attached from
the trailer timestamp and the header fields; in particular for a file
truncated inside frame `N`, reading frame `N` fails while reading frame
`N-1` succeeds. -/
theorem C7_single_frame_read (movie : SERMovie) (idx : Nat) :
    (idx ≥ movie.header.uiFrameCount →
      SERGetFrame movie idx = .error .indexBeyond) ∧
    (idx < movie.header.uiFrameCount →
      movie.filesize < SERGetFrameOffset movie.header idx →
      SERGetFrame movie idx = .error .missingFrame) ∧
    (idx < movie.header.uiFrameCount →
      SERGetFrameOffset movie.header idx ≤ movie.filesize →
      movie.filesize < SERGetFrameOffset movie.header idx + SERGetFrameSize movie.header →
      SERGetFrame movie idx = .error .incompleteFrame) ∧
    (idx < movie.header.uiFrameCount →
      SERGetFrameOffset movie.header idx + SERGetFrameSize movie.header ≤ movie.filesize →
      movie.filesize = movie.fileBytes.length →
      ((movie.fileBytes.drop (SERGetFrameOffset movie.header idx)).take
          (SERGetFrameSize movie.header)).length = SERGetFrameSize movie.header ∧
      SERGetFrame movie idx = .ok {
        id := idx + 1
        index := idx
        datetime := SERGetFrameDate movie idx
        littleEndian := movie.header.uiLittleEndian
        pixelDepth := movie.header.uiPixelDepth
        colorID := movie.header.uiColorID
        width := movie.header.uiImageWidth
        height := movie.header.uiImageHeight
        size := SERGetFrameSize movie.header
        data := (movie.fileBytes.drop (SERGetFrameOffset movie.header idx)).take
          (SERGetFrameSize movie.header) }) ∧
    (∀ N, 0 < N → N < movie.header.uiFrameCount →
      SERGetFrameOffset movie.header N ≤ movie.filesize →
      movie.filesize < SERGetFrameOffset movie.header N + SERGetFrameSize movie.header →
      movie.filesize = movie.fileBytes.length →
      SERGetFrame movie N = .error .incompleteFrame ∧
      (∃ fr, SERGetFrame movie (N - 1) = .ok fr)) := by
  have hoff : ∀ j, SERGetFrameOffset movie.header j =
      SERHeaderSize + j * SERGetFrameSize movie.header := fun _ => rfl
  have hlen : ∀ j, SERGetFrameOffset movie.header j + SERGetFrameSize movie.header ≤
      movie.filesize → movie.filesize = movie.fileBytes.length →
      ((movie.fileBytes.drop (SERGetFrameOffset movie.header j)).take
          (SERGetFrameSize movie.header)).length = SERGetFrameSize movie.header := by
    intro j h1 h2
    rw [List.length_take, List.length_drop]
    omega
  have hmain : ∀ j, j < movie.header.uiFrameCount →
      SERGetFrameOffset movie.header j + SERGetFrameSize movie.header ≤ movie.filesize →
      movie.filesize = movie.fileBytes.length →
      SERGetFrame movie j = .ok {
        id := j + 1, index := j
        datetime := SERGetFrameDate movie j
        littleEndian := movie.header.uiLittleEndian
        pixelDepth := movie.header.uiPixelDepth
        colorID := movie.header.uiColorID
        width := movie.header.uiImageWidth
        height := movie.header.uiImageHeight
        size := SERGetFrameSize movie.header
        data := (movie.fileBytes.drop (SERGetFrameOffset movie.header j)).take
          (SERGetFrameSize movie.header) } := by
    intro j hj h1 h2
    have hl := hlen j h1 h2
    unfold SERGetFrame
    rw [if_neg (by omega), if_neg (by rw [hoff] at h1; omega),
      if_neg (by rw [hoff] at h1; omega), if_neg (by rw [hoff] at hl; omega)]
    rw [hoff]
  refine ⟨?_, ?_, ?_, ?_, ?_⟩
  · intro h
    unfold SERGetFrame
    rw [if_pos h]
  · intro h1 h2
    unfold SERGetFrame
    rw [hoff] at h2
    rw [if_neg (by omega), if_pos h2]
  · intro h1 h2 h3
    unfold SERGetFrame
    rw [hoff] at h2 h3
    rw [if_neg (by omega), if_neg (by omega), if_pos h3]
  · intro h1 h2 h3
    exact ⟨hlen idx h2 h3, hmain idx h1 h2 h3⟩
  · intro N hN0 hN h1 h2 h3
    constructor
    · unfold SERGetFrame
      rw [hoff] at h1 h2
      rw [if_neg (by omega), if_neg (by omega), if_pos (by omega)]
    · refine ⟨_, hmain (N - 1) (by omega) ?_ h3⟩
      rw [hoff] at h1 ⊢
      have : (N - 1) * SERGetFrameSize movie.header + SERGetFrameSize movie.header =
          N * SERGetFrameSize movie.header := by
        have hN1 : N - 1 + 1 = N := by omega
        calc (N - 1) * SERGetFrameSize movie.header + SERGetFrameSize movie.header
            = (N - 1 + 1) * SERGetFrameSize movie.header := by ring
          _ = N * SERGetFrameSize movie.header := by rw [hN1]
      omega

/-- A movie over `sampleHeader` (3 frames of 4 bytes) whose file is
truncated in the middle of frame 2: 186 bytes = header + two frames. -/
def truncatedMovie : SERMovie :=
  { header := sampleHeader, fileBytes := List.replicate 186 7, filesize := 186
    invert_endianness := false, warnings := 0, duration := 0
    firstFrameDate := 0, lastFrameDate := 0 }

/-- Witness for C7: on the truncated movie, frame 2 fails with the
incomplete-frame error while frame 1 reads successfully. -/
theorem C7_single_frame_read_witness :
    SERGetFrame truncatedMovie 2 = .error .incompleteFrame ∧
    (∃ fr, SERGetFrame truncatedMovie 1 = .ok fr) :=
  (C7_single_frame_read truncatedMovie 0).2.2.2.2 2
    (by decide) (by decide) (by decide) (by decide)
    (by simp only [truncatedMovie, List.length_replicate])

/-! ### Claim C8 -/

/-- A 10-frame header for the C8 failing input. -/
def header10 : SERHeader := { sampleHeader with uiFrameCount := 10 }

/-- Claim C8 (code bug): resolving the user range `from = -12, to = -11,
count = 0` against a 10-frame movie yields resolved endpoints `-2` and
`-1`, both outside `[0, 10)`; the claim (and the specification) require an
out-of-bounds failure, but the code checks only the upper bound, stores the
negative endpoints into the unsigned range fields, and returns success with
the wrapped range `{4294967294, 4294967295}` of count 2. -/
theorem C8_negative_range_not_rejected :
    determineFrameRange header10 (-12) (-11) 0 =
      .ok { rfrom := 4294967294, rto := 4294967295, count := 2 } := rfl

/-! ### Claim C9 -/

/-- Claim C9: opening a file of at least header size whose first 14 bytes
differ from the fixed magic string fails with the invalid-format error,
and the only read performed is the single header read at offset 0 — no
frame, trailer or statistics read occurs. -/
theorem C9_invalid_magic_rejection (file : List Nat)
    (hlen : SERHeaderSize ≤ file.length)
    (hmagic : file.take 14 ≠ serFileId) :
    (SEROpenMovie file).1 = .error .invalidFormat ∧
    (SEROpenMovie file).2 = [(0, SERHeaderSize)] := by
  unfold SEROpenMovie
  rw [if_neg (by omega), if_pos (fun h => hmagic h.1)]
  exact ⟨rfl, rfl⟩

/-- A 178-byte file of 0x01 bytes: long enough to parse, wrong magic. -/
def badMagicFile : List Nat := List.replicate 178 1

/-- Witness for C9 on the concrete bad-magic file. -/
theorem C9_invalid_magic_rejection_witness :
    (SEROpenMovie badMagicFile).1 = .error .invalidFormat ∧
    (SEROpenMovie badMagicFile).2 = [(0, SERHeaderSize)] :=
  C9_invalid_magic_rejection badMagicFile
    (by simp only [badMagicFile, List.length_replicate]; decide)
    (by simp only [badMagicFile, List.take_replicate]; decide)

/-! ### Byte-layout lemmas used for the extraction round-trip -/

theorem encodeHeader_length (h : SERHeader) : (encodeHeader h).length = 178 := by
  simp [encodeHeader, fixBytes, u32LE, u64LE, List.length_append,
    List.length_take, List.length_replicate]

theorem getD_drop (l : List Nat) (m i : Nat) :
    (l.drop m).getD i 0 = l.getD (m + i) 0 := by
  simp [List.getD_eq_getElem?_getD, List.getElem?_drop]

theorem readUInt64LE_eq_drop (l : List Nat) (off : Nat) :
    readUInt64LE l off = readUInt64LE (l.drop off) 0 := by
  simp only [readUInt64LE, getD_drop, Nat.add_zero]

theorem readUInt64LE_u64LE_append (d : Nat) (rest : List Nat)
    (hd : d < 18446744073709551616) :
    readUInt64LE (u64LE d ++ rest) 0 = d := by
  show d % 256 + 256 * (d / 256 % 256) + 65536 * (d / 65536 % 256) +
    16777216 * (d / 16777216 % 256) + 4294967296 * (d / 4294967296 % 256) +
    1099511627776 * (d / 1099511627776 % 256) +
    281474976710656 * (d / 281474976710656 % 256) +
    72057594037927936 * (d / 72057594037927936 % 256) = d
  omega

theorem readUInt64LE_flatten_u64LE (dates : List Nat) :
    ∀ j : Nat, j < dates.length → (∀ d ∈ dates, d < 18446744073709551616) →
    readUInt64LE ((dates.map u64LE).flatten) (8 * j) = dates.getD j 0 := by
  induction dates with
  | nil => intro j hj _; simp at hj
  | cons d ds ih =>
    intro j hj hw
    match j with
    | 0 =>
      simp only [List.map_cons, List.flatten_cons, Nat.mul_zero,
        List.getD_cons_zero]
      exact readUInt64LE_u64LE_append d _ (hw d (by simp))
    | Nat.succ k =>
      simp only [List.map_cons, List.flatten_cons, List.getD_cons_succ]
      rw [readUInt64LE_eq_drop]
      have h8 : 8 * (k + 1) = (u64LE d).length + 8 * k := by
        simp [u64LE]; omega
      rw [h8, List.drop_append, ← readUInt64LE_eq_drop]
      exact ih k (by simpa using hj) (fun x hx => hw x (by simp [hx]))

theorem appendFrameToVideo_ok (h : SERHeader) (frameData rest : List Nat)
    (movie : SERMovie) (hmv : movie.header = h)
    (hfile : movie.fileBytes = encodeHeader h ++ (frameData ++ rest))
    (j : Nat) (hj : (j + 1) * SERGetFrameSize h ≤ frameData.length)
    (hfs : SERGetFrameSize h ≠ 0) :
    appendFrameToVideo movie j =
      .ok ((frameData.drop (j * SERGetFrameSize h)).take (SERGetFrameSize h)) := by
  have hexp : (j + 1) * SERGetFrameSize h =
      j * SERGetFrameSize h + SERGetFrameSize h := by ring
  unfold appendFrameToVideo
  rw [hmv, if_neg hfs, hfile]
  have hoff : SERGetFrameOffset h j =
      (encodeHeader h).length + j * SERGetFrameSize h := by
    rw [encodeHeader_length]; rfl
  rw [hoff, List.drop_append,
    List.drop_append_of_le_length (by omega),
    List.take_append_of_le_length (by rw [List.length_drop]; omega)]
  have hblen : ((frameData.drop (j * SERGetFrameSize h)).take
      (SERGetFrameSize h)).length = SERGetFrameSize h := by
    rw [List.length_take, List.length_drop]; omega
  rw [if_neg (fun hne => hne hblen)]

theorem extractFramesLoop_ok (h : SERHeader) (frameData : List Nat)
    (dates : List Nat) (movie : SERMovie) (hmv : movie.header = h)
    (hfile : movie.fileBytes =
      encodeHeader h ++ (frameData ++ (dates.map u64LE).flatten))
    (hN : h.uiFrameCount = dates.length)
    (hframes : frameData.length = dates.length * SERGetFrameSize h)
    (hfs : SERGetFrameSize h ≠ 0)
    (hdz : ∀ d ∈ dates, d ≠ 0)
    (hdw : ∀ d ∈ dates, d < 18446744073709551616) :
    ∀ (k j : Nat), j + k ≤ dates.length →
    extractFramesLoop movie j k =
      .ok ((frameData.drop (j * SERGetFrameSize h)).take (k * SERGetFrameSize h),
           (dates.drop j).take k) := by
  have hdate : ∀ j : Nat, j < dates.length →
      readFrameDate movie j = dates.getD j 0 := by
    intro j hj
    show SERGetFrameDate movie j = dates.getD j 0
    unfold SERGetFrameDate
    rw [hmv, if_neg (show ¬ j ≥ h.uiFrameCount by rw [hN]; omega), hfile]
    have h1 : SERGetTrailerOffset h =
        SERHeaderSize + h.uiFrameCount * SERGetFrameSize h := rfl
    have htr : SERGetTrailerOffset h + 8 * j =
        (encodeHeader h).length + (frameData.length + 8 * j) := by
      rw [h1, encodeHeader_length, hframes, hN, SERHeaderSize]
      ring
    rw [htr, readUInt64LE_eq_drop, List.drop_append, List.drop_append,
      ← readUInt64LE_eq_drop]
    exact readUInt64LE_flatten_u64LE dates j hj hdw
  intro k
  induction k with
  | zero =>
    intro j _
    simp [extractFramesLoop]
  | succ k ih =>
    intro j hjk
    have hj : j < dates.length := by omega
    have e1 := appendFrameToVideo_ok h frameData ((dates.map u64LE).flatten)
      movie hmv hfile j
      (by rw [hframes]; exact Nat.mul_le_mul_right _ (by omega)) hfs
    have e2 := hdate j hj
    have e3 := ih (j + 1) (by omega)
    have hmem : dates.getD j 0 ∈ dates := by
      rw [List.getD_eq_getElem?_getD, List.getElem?_eq_getElem hj,
        Option.getD_some]
      exact List.getElem_mem hj
    simp only [extractFramesLoop, e1, e2, e3]
    rw [if_neg (hdz _ hmem)]
    have hA : (frameData.drop (j * SERGetFrameSize h)).take
        ((k + 1) * SERGetFrameSize h) =
        (frameData.drop (j * SERGetFrameSize h)).take (SERGetFrameSize h) ++
        (frameData.drop ((j + 1) * SERGetFrameSize h)).take
          (k * SERGetFrameSize h) := by
      rw [show (k + 1) * SERGetFrameSize h =
        SERGetFrameSize h + k * SERGetFrameSize h by ring]
      rw [List.take_add, List.drop_drop,
        show j * SERGetFrameSize h + SERGetFrameSize h =
          (j + 1) * SERGetFrameSize h by ring]
    have hB : (dates.drop j).take (k + 1) =
        dates.getD j 0 :: (dates.drop (j + 1)).take k := by
      rw [List.drop_eq_getElem_cons hj, List.take_succ_cons,
        List.getD_eq_getElem?_getD, List.getElem?_eq_getElem hj,
        Option.getD_some]
    rw [hA, hB]

attribute [ext] SERHeader

/-! ### Claim C1 -/

/-- Claim C1 (amended): extracting the full range `[0, N-1]` of a valid
movie (its byte image is header ++ N complete frames ++ full trailer, all
frame timestamps nonzero) writes the same frame bytes in the same order
and the same trailer bytes, under a header identical to the source header
except that `uiFrameCount` is (re)set to N — which it already equals — and
that the two start-timestamp fields are recomputed from the first frame's
trailer timestamp; when the source header's local and UTC timestamps
already equal that first frame timestamp the output is byte-identical to
the source file. -/
theorem C1_roundtrip_extraction_amended
    (h : SERHeader) (frameData dates : List Nat) (movie : SERMovie)
    (hmv : movie.header = h)
    (hfile : movie.fileBytes =
      encodeHeader h ++ (frameData ++ (dates.map u64LE).flatten))
    (hN : h.uiFrameCount = dates.length)
    (hN0 : 0 < dates.length)
    (hframes : frameData.length = dates.length * SERGetFrameSize h)
    (hfs : SERGetFrameSize h ≠ 0)
    (hdz : ∀ d ∈ dates, d ≠ 0)
    (hdw : ∀ d ∈ dates, d < 18446744073709551616) :
    extractFramesFromVideo movie ⟨0, dates.length - 1, dates.length⟩ =
      .ok (encodeHeader { h with
          uiFrameCount := dates.length,
          ulDateTime := dates.getD 0 0,
          ulDateTime_UTC := extractAdjustedUTC h (dates.getD 0 0) } ++
        (frameData ++ (dates.map u64LE).flatten)) ∧
    (h.ulDateTime = dates.getD 0 0 → h.ulDateTime_UTC = dates.getD 0 0 →
      extractFramesFromVideo movie ⟨0, dates.length - 1, dates.length⟩ =
        .ok movie.fileBytes) := by
  have hmem0 : dates.getD 0 0 ∈ dates := by
    rw [List.getD_eq_getElem?_getD, List.getElem?_eq_getElem hN0,
      Option.getD_some]
    exact List.getElem_mem hN0
  have hd0 : readFrameDate movie 0 = dates.getD 0 0 := by
    have := extractFramesLoop_ok h frameData dates movie hmv hfile hN hframes
      hfs hdz hdw 1 0 (by omega)
    -- recover the single date by reading it directly
    show SERGetFrameDate movie 0 = dates.getD 0 0
    unfold SERGetFrameDate
    rw [hmv, if_neg (show ¬ 0 ≥ h.uiFrameCount by rw [hN]; omega), hfile]
    have h1 : SERGetTrailerOffset h =
        SERHeaderSize + h.uiFrameCount * SERGetFrameSize h := rfl
    have htr : SERGetTrailerOffset h + 8 * 0 =
        (encodeHeader h).length + (frameData.length + 8 * 0) := by
      rw [h1, encodeHeader_length, hframes, hN, SERHeaderSize]
      ring
    rw [htr, readUInt64LE_eq_drop, List.drop_append, List.drop_append,
      ← readUInt64LE_eq_drop]
    exact readUInt64LE_flatten_u64LE dates 0 hN0 hdw
  have hloop := extractFramesLoop_ok h frameData dates movie hmv hfile hN
    hframes hfs hdz hdw dates.length 0 (by omega)
  have main1 : extractFramesFromVideo movie ⟨0, dates.length - 1, dates.length⟩ =
      .ok (encodeHeader { h with
          uiFrameCount := dates.length,
          ulDateTime := dates.getD 0 0,
          ulDateTime_UTC := extractAdjustedUTC h (dates.getD 0 0) } ++
        (frameData ++ (dates.map u64LE).flatten)) := by
    unfold extractFramesFromVideo
    simp only [hmv]
    rw [hd0, if_neg (hdz _ hmem0), hloop]
    simp only [Nat.zero_mul, List.drop_zero]
    rw [← hframes, List.take_length, List.take_length, List.append_assoc]
  refine ⟨main1, fun e1 e2 => ?_⟩
  rw [main1, hfile]
  have hadj : extractAdjustedUTC h (dates.getD 0 0) = dates.getD 0 0 := by
    unfold extractAdjustedUTC
    have hz : (h.ulDateTime_UTC % 18446744073709551616 + 18446744073709551616 -
        h.ulDateTime % 18446744073709551616) % 18446744073709551616 = 0 := by
      rw [e1, e2]
      omega
    rw [hz]
    norm_num [cInt64OfUInt64]
  have hh : ({ h with
      uiFrameCount := dates.length,
      ulDateTime := dates.getD 0 0,
      ulDateTime_UTC := extractAdjustedUTC h (dates.getD 0 0) } : SERHeader) = h := by
    have hutc : extractAdjustedUTC h (dates.getD 0 0) = h.ulDateTime_UTC := by
      rw [hadj, e2]
    rw [hutc, e1.symm, hN.symm]
  rw [hh]

/-- Source header for the C1 counterexample: 1x1 mono 8-bit, two frames,
header start timestamps 5 and 5, first frame trailer timestamp 7. -/
def cxHeader : SERHeader :=
  { sFileID := serFileId, uiLuID := 0, uiColorID := 0, uiLittleEndian := 0,
    uiImageWidth := 1, uiImageHeight := 1, uiPixelDepth := 8, uiFrameCount := 2,
    sObserver := List.replicate 40 0, sInstrument := List.replicate 40 0,
    sTelescope := List.replicate 40 0, ulDateTime := 5, ulDateTime_UTC := 5 }

/-- The counterexample movie file: header, two 1-byte frames, trailer with
the nonzero timestamps 7 and 8. -/
def cxFile : List Nat :=
  encodeHeader cxHeader ++ ([9, 9] ++ ([7, 8].map u64LE).flatten)

/-- The counterexample movie handle. -/
def cxMovie : SERMovie :=
  { header := cxHeader, fileBytes := cxFile, filesize := 196,
    invert_endianness := false, warnings := 0, duration := 0,
    firstFrameDate := 0, lastFrameDate := 0 }

/-- What the extraction actually produces for `cxMovie`: the same bytes
with the header's local/UTC start timestamps replaced by 7 (the first
frame's trailer timestamp). -/
def cxOut : List Nat :=
  encodeHeader { cxHeader with ulDateTime := 7, ulDateTime_UTC := 7 } ++
  ([9, 9] ++ ([7, 8].map u64LE).flatten)

set_option maxRecDepth 40000 in
/-- Counterexample for claim C1: for this valid 2-frame movie (trailer
present, all frame timestamps nonzero, header frame count already 2),
extracting the full range `[0, 1]` succeeds but produces a file that is
NOT byte-identical to the source: the code rewrites the header's
local/UTC datetime fields (bytes 162-177) from the first frame's trailer
timestamp (5 becomes 7). -/
theorem C1_roundtrip_extraction_counterexample :
    extractFramesFromVideo cxMovie ⟨0, 1, 2⟩ = .ok cxOut ∧ cxOut ≠ cxFile := by
  refine ⟨rfl, by decide⟩

/-- Header whose start timestamps already equal the first frame's trailer
timestamp, for the C1 witness. -/
def wHeader : SERHeader := { cxHeader with ulDateTime := 7, ulDateTime_UTC := 7 }

/-- The witness movie: byte image of `wHeader` plus two frames and the
trailer `[7, 8]`. -/
def wMovie : SERMovie :=
  { header := wHeader,
    fileBytes := encodeHeader wHeader ++ ([9, 9] ++ ([7, 8].map u64LE).flatten),
    filesize := 196, invert_endianness := false, warnings := 0, duration := 0,
    firstFrameDate := 0, lastFrameDate := 0 }

set_option maxRecDepth 40000 in
/-- Witness for C1 (amended): on `wMovie` the full-range extraction is
byte-identical to the source. -/
theorem C1_roundtrip_extraction_witness :
    extractFramesFromVideo wMovie ⟨0, 1, 2⟩ = .ok wMovie.fileBytes :=
  (C1_roundtrip_extraction_amended wHeader [9, 9] [7, 8] wMovie rfl rfl
    (by decide) (by decide) (by decide) (by decide) (by decide)
    (by decide)).2 (by decide) (by decide)

/-! ### Split planning (`determineSplitRanges`, serutils.c lines 788-1009)

The three split modes of serutils.c.  `conf.split_mode` / `conf.split_amount`
are passed explicitly; the global `splitRanges` array and `split_count`
become the returned list (the C writes ranges at increasing indices and
finally sets `split_count`); the local `chuncks_duration[50]` array becomes
the durations list, with the C's zero-initialised unwritten slots restored
by zero-padding at the final check.  Every `assert` in this path is
modelled as the `assertAbort` error (the binary is built without NDEBUG,
so a failing assert aborts instead of returning). -/

/-- MAX_SPLIT_COUNT. -/
def MAX_SPLIT_COUNT : Nat := 50

/-- MIN_SPLIT_FRAMES_PER_CHUNCK. -/
def MIN_SPLIT_FRAMES_PER_CHUNCK : Nat := 100

/-- The distinct failure messages of `determineSplitRanges`, plus the
abort of a failing `assert`. -/
inductive SplitError
  | invalidValue
  | invalidMode
  | tooFewFrames
  | tooManySplits
  | chunkTooSmall
  | invalidDatetime
  | timeLapseTooBig
  | assertAbort
deriving DecidableEq, Repr

/-- serutils.c `videoTimeToUnixtime` (line 346): integer division of the
native timestamp by 10^7, minus the year-1-to-Unix-epoch constant.  The C
subtraction wraps in `uint64_t` and is then read back as `time_t`
(`int64_t`); for any `video_t < 2^64` the seconds quotient is below 2^57,
so the signed reading equals the exact integer difference modelled here. -/
def videoTimeToUnixtime (video_t : Nat) : Int :=
  ((video_t / 10000000 : Nat) : Int) - 62135596800

/-- `getFrameRangeDuration` (serutils.c lines 351-362). -/
def getFrameRangeDuration (movie : SERMovie) (range : SERFrameRange) : Int :=
  if range.rto < range.rfrom then -1
  else if range.rto = range.rfrom then 0
  else
    let start_date := readFrameDate movie range.rfrom
    let end_date := readFrameDate movie range.rto
    if start_date = 0 ∨ end_date = 0 then -1
    else if end_date < start_date then -1
    else if start_date = end_date then 0
    else videoTimeToUnixtime end_date - videoTimeToUnixtime start_date

/-- The `for (i = 0; i < split_count; i++)` loop of the ByCount mode
(lines 826-840).  Each stored range is `[i*fpm, (i+1)*fpm - 1]` with
`count = 1 + (to - from)`; the `to >= frameCount` break (which stores no
range) is reproduced even though it is unreachable.  Returns the stored
ranges and the inner `frames_added`. -/
def splitCountLoop (fc fpm : Nat) :
    Nat → Nat → List SERFrameRange → Nat → (List SERFrameRange × Nat)
  | 0, _, acc, fa => (acc, fa)
  | k + 1, i, acc, fa =>
    let f := i * fpm
    let t := f + fpm - 1
    if t ≥ fc then (acc, fa)
    else splitCountLoop fc fpm k (i + 1)
      (acc ++ [⟨f, t, 1 + (t - f)⟩]) (fa + (1 + (t - f)))

/-- The ByCount mode (lines 813-859): cap check, frames-per-movie
minimum, the storing loop, then the remainder range which is either
appended or (when below the 100-frame minimum) merged into the previous
range by extending its `to`.  Counts cannot wrap: `to`, `from` are frame
indices below the 32-bit frame count. -/
def splitModeCount (movie : SERMovie) (split_count : Nat) :
    Except SplitError (List SERFrameRange) :=
  let fc := movie.header.uiFrameCount
  if split_count > MAX_SPLIT_COUNT then .error .tooManySplits
  else
    let fpm := fc / split_count
    if fpm < MIN_SPLIT_FRAMES_PER_CHUNCK then .error .chunkTooSmall
    else
      match splitCountLoop fc fpm split_count 0 [] 0 with
      | (acc, fa) =>
        if fa < fc then
          if fc - 1 < fa then .error .assertAbort
          else if 1 + (fc - 1 - fa) < MIN_SPLIT_FRAMES_PER_CHUNCK then
            match acc.getLast? with
            | none => .error .chunkTooSmall
            | some prev =>
              if fc - 1 < prev.rfrom then .error .assertAbort
              else .ok (acc.dropLast ++
                [⟨prev.rfrom, fc - 1, 1 + (fc - 1 - prev.rfrom)⟩])
          else .ok (acc ++ [⟨fa, fc - 1, 1 + (fc - 1 - fa)⟩])
       else .ok acc

/-- The `while (frames_added < frames_to_add)` loop of the ByFrameLength
mode (lines 867-881).  The fuel argument only bounds the recursion: every
stored range covers at least one frame, so the loop runs at most
`frameCount` times and the caller's fuel `frameCount + 1` can never be
exhausted (the fuel-0 branch is unreachable). -/
def splitModeFramesLoop (fc amt : Nat) :
    Nat → List SERFrameRange → Nat → Nat → Except SplitError (List SERFrameRange)
  | 0, _, _, _ => .error .assertAbort
  | fuel + 1, acc, fa, lfa =>
    if fa < fc then
      let f := if fa = 0 then 0 else lfa + 1
      if f > fc - 1 then .ok acc
      else
        let t := if f + amt - 1 > fc - 1 then fc - 1 else f + amt - 1
        if t < f then .error .assertAbort
        else if (acc ++ [(⟨f, t, 1 + (t - f)⟩ : SERFrameRange)]).length >
            MAX_SPLIT_COUNT then
          .error .tooManySplits
        else splitModeFramesLoop fc amt fuel
          (acc ++ [(⟨f, t, 1 + (t - f)⟩ : SERFrameRange)])
          (fa + (1 + (t - f))) t
    else .ok acc

/-- The ByFrameLength mode (lines 860-882). -/
def splitModeFrames (movie : SERMovie) (amount : Int) :
    Except SplitError (List SERFrameRange) :=
  let fc := movie.header.uiFrameCount
  if amount < 100 then .error .chunkTooSmall
  else splitModeFramesLoop fc amount.toNat (fc + 1) [] 0 0

/-- The per-frame walk state of the ByDuration mode: the closed ranges
and their recorded durations, the in-place current range
(`range->from` / `range->to`; `range->count` is only ever written
together with `to` and is not tracked separately), `previous_t` and
`elapsed_t`. -/
structure SecsState where
  closed : List SERFrameRange
  durations : List Int
  curFrom : Nat
  curTo : Nat
  prev_t : Int
  elapsed : Int
deriving Repr

/-- The chunk-closing block of the ByDuration walk (lines 913-934): when
the accumulated time reaches `max_t` the current range is closed at frame
`i` (or `i-1` when the target was overshot; the walk only reaches this
point with a positive `elapsed`, hence `i >= 1` there), its duration
recorded, the cap and minimum-size checks applied, and a fresh current
range started at the next frame.  `previous_t` becomes the current
frame's time in either case. -/
def splitSecsClose (max_t : Int) (i : Nat) (s : SecsState) (frame_t : Int) :
    Except SplitError SecsState :=
  if s.elapsed ≥ max_t then
    let frame_idx := if s.elapsed > max_t then i - 1 else i
    if frame_idx < s.curFrom then .error .assertAbort
    else
      let r : SERFrameRange := ⟨s.curFrom, frame_idx, 1 + (frame_idx - s.curFrom)⟩
      if (s.closed ++ [r]).length > MAX_SPLIT_COUNT then .error .tooManySplits
      else if r.count < MIN_SPLIT_FRAMES_PER_CHUNCK then .error .chunkTooSmall
      else .ok { closed := s.closed ++ [r], durations := s.durations ++ [s.elapsed],
                 curFrom := frame_idx + 1, curTo := 0, prev_t := frame_t,
                 elapsed := 0 }
  else .ok { s with prev_t := frame_t }

/-- One iteration of the ByDuration walk (lines 892-941): reject a zero
timestamp or a non-positive / decreasing frame time; at `i = 0` start the
first range; skip accumulation on the first frame of a chunk; otherwise
accumulate the inter-frame gap, failing when a single gap exceeds the
chunk duration; then run the closing check. -/
def splitSecsStep (movie : SERMovie) (max_t : Int) (i : Nat) (s : SecsState) :
    Except SplitError SecsState :=
  let datetime := readFrameDate movie i
  if datetime = 0 then .error .invalidDatetime
  else
    let frame_t := videoTimeToUnixtime datetime
    if frame_t ≤ 0 ∨ frame_t < s.prev_t then .error .invalidDatetime
    else
      if i = 0 then splitSecsClose max_t i { s with curFrom := 0 } frame_t
      else if i = s.curFrom then .ok { s with prev_t := frame_t }
      else if s.prev_t > 0 then
        if frame_t - s.prev_t > max_t then .error .timeLapseTooBig
        else splitSecsClose max_t i
          { s with elapsed := s.elapsed + (frame_t - s.prev_t) } frame_t
      else splitSecsClose max_t i s frame_t

/-- The `for (i = 0; ...)` frame walk of the ByDuration mode; the second
argument is the number of frames left to visit. -/
def splitSecsWalk (movie : SERMovie) (max_t : Int) :
    Nat → Nat → SecsState → Except SplitError SecsState
  | _, 0, s => .ok s
  | i, r + 1, s =>
    match splitSecsStep movie max_t i s with
    | .error e => .error e
    | .ok s' => splitSecsWalk movie max_t (i + 1) r s'

/-- The trailing-chunk handling of the ByDuration mode (lines 943-962):
when the current range was started (`from > 0`), starts strictly before
the last movie frame, and is still open (`to == 0`), it is closed at the
last frame and either appended (its `chuncks_duration` slot staying 0, as
the recorded duration is written one index past it) or merged into the
previous range when too small or too short. -/
def splitSecsTrailing (movie : SERMovie) (min_t : Int) (last_movie_frame : Nat)
    (s : SecsState) : Except SplitError (List SERFrameRange × List Int) :=
  if s.curFrom > 0 ∧ s.curFrom < last_movie_frame ∧ s.curTo = 0 then
    if last_movie_frame < s.curFrom then .error .assertAbort
    else
      let r : SERFrameRange :=
        ⟨s.curFrom, last_movie_frame, 1 + (last_movie_frame - s.curFrom)⟩
      let duration := getFrameRangeDuration movie r
      if r.count < MIN_SPLIT_FRAMES_PER_CHUNCK ∨ duration < min_t then
        match s.closed.getLast? with
        | none => .error .chunkTooSmall
        | some prev =>
          if last_movie_frame < prev.rfrom then .error .assertAbort
          else .ok (s.closed.dropLast ++
            [⟨prev.rfrom, last_movie_frame, 1 + (last_movie_frame - prev.rfrom)⟩],
            s.durations)
      else .ok (s.closed ++ [r], s.durations ++ [0])
  else .ok (s.closed, s.durations)

/-- The ByDuration mode (lines 883-964), including its trailing
`split_count > MAX_SPLIT_COUNT` check. -/
def splitModeSecs (movie : SERMovie) (amount : Int) :
    Except SplitError (List SERFrameRange × List Int) :=
  let fc := movie.header.uiFrameCount
  match splitSecsWalk movie amount 0 fc
    { closed := [], durations := [], curFrom := 0, curTo := 0,
      prev_t := 0, elapsed := 0 } with
  | .error e => .error e
  | .ok s =>
    match splitSecsTrailing movie (amount / 10) (fc - 1) s with
    | .error e => .error e
    | .ok (rs, ds) =>
      if rs.length > MAX_SPLIT_COUNT then .error .tooManySplits
      else .ok (rs, ds)

/-- The final verification loop (lines 966-990): sums the range counts,
recomputing each zero duration via `getFrameRangeDuration` and, when the
recomputed duration is negative, running the `assert(end_t > start_t)`
diagnostic block. -/
def splitFinalCheckLoop (movie : SERMovie) :
    List (SERFrameRange × Int) → Nat → Except SplitError Nat
  | [], tot => .ok tot
  | (r, d) :: rest, tot =>
    if d = 0 then
      let d' := getFrameRangeDuration movie r
      if d' < 0 then
        if videoTimeToUnixtime (readFrameDate movie r.rto) >
            videoTimeToUnixtime (readFrameDate movie r.rfrom) then
          splitFinalCheckLoop movie rest (tot + r.count)
        else .error .assertAbort
      else splitFinalCheckLoop movie rest (tot + r.count)
    else splitFinalCheckLoop movie rest (tot + r.count)

/-- The closing check of `determineSplitRanges` (lines 966-995): the
duration loop, then the hard `tot_frames_added == uiFrameCount` assert.
The durations are right-padded with the zero-initialised array slots. -/
def splitFinalCheck (movie : SERMovie) (ranges : List SERFrameRange)
    (durations : List Int) : Except SplitError (List SERFrameRange) :=
  match splitFinalCheckLoop movie
    (ranges.zip (durations ++ List.replicate ranges.length 0)) 0 with
  | .error e => .error e
  | .ok tot =>
    if tot ≠ movie.header.uiFrameCount then .error .assertAbort
    else .ok ranges

/-- `determineSplitRanges(movie)` with the configuration passed
explicitly.  Validates amount, mode and the 150-frame source minimum,
dispatches on the mode, and runs the final verification. -/
def determineSplitRanges (movie : SERMovie) (split_mode split_amount : Int) :
    Except SplitError (List SERFrameRange) :=
  let fc := movie.header.uiFrameCount
  if split_amount ≤ 0 then .error .invalidValue
  else if split_mode < 1 ∨ split_mode > 3 then .error .invalidMode
  else if fc ≤ MIN_SPLIT_FRAMES_PER_CHUNCK + MIN_SPLIT_FRAMES_PER_CHUNCK / 2 then
    .error .tooFewFrames
  else
    match
      (if split_mode = 1 then
        match splitModeCount movie split_amount.toNat with
        | .error e => .error e
        | .ok rs => .ok (rs, List.replicate rs.length (0 : Int))
      else if split_mode = 2 then
        match splitModeFrames movie split_amount with
        | .error e => .error e
        | .ok rs => .ok (rs, List.replicate rs.length (0 : Int))
      else splitModeSecs movie split_amount) with
    | .error e => .error e
    | .ok (rs, ds) => splitFinalCheck movie rs ds

/-! ### Contiguous-partition predicate and its consequences -/

/-- `chainFrom s rs`: the ranges in `rs` are contiguous starting at frame
`s` — each range starts where the previous one ended plus one, is
non-empty (`from <= to`) and carries the count `to - from + 1`. -/
def chainFrom : Nat → List SERFrameRange → Prop
  | _, [] => True
  | s, r :: rest =>
    r.rfrom = s ∧ r.rfrom ≤ r.rto ∧ r.count = r.rto - r.rfrom + 1 ∧
    chainFrom (r.rto + 1) rest

theorem chainFrom_count_cover :
    ∀ (rs : List SERFrameRange) (s : Nat), chainFrom s rs → ∀ f : Nat,
    rs.countP (fun r => decide (r.rfrom ≤ f) && decide (f ≤ r.rto)) =
      if s ≤ f ∧ f < s + (rs.map (·.count)).sum then 1 else 0 := by
  intro rs
  induction rs with
  | nil =>
    intro s _ f
    simp only [List.countP_nil, List.map_nil, List.sum_nil, Nat.add_zero]
    split_ifs <;> omega
  | cons r rest ih =>
    intro s hc f
    obtain ⟨h1, h2, h3, h4⟩ := hc
    rw [List.countP_cons, ih (r.rto + 1) h4 f]
    simp only [List.map_cons, List.sum_cons]
    split_ifs with hA hB hC hD hE hF <;>
      simp only [Bool.and_eq_true, decide_eq_true_eq] at * <;> omega

theorem chainFrom_le :
    ∀ (rs : List SERFrameRange) (s : Nat), chainFrom s rs →
    ∀ r ∈ rs, s ≤ r.rfrom := by
  intro rs
  induction rs with
  | nil => intro s _ r hr; cases hr
  | cons a rest ih =>
    intro s hc r hr
    obtain ⟨h1, h2, _, h4⟩ := hc
    rcases List.mem_cons.mp hr with hr | hr
    · subst hr; omega
    · have := ih (a.rto + 1) h4 r hr
      omega

theorem chainFrom_pairwise :
    ∀ (rs : List SERFrameRange) (s : Nat), chainFrom s rs →
    rs.Pairwise (fun a b => a.rto < b.rfrom) := by
  intro rs
  induction rs with
  | nil => intro s _; exact List.Pairwise.nil
  | cons a rest ih =>
    intro s hc
    obtain ⟨h1, h2, _, h4⟩ := hc
    refine List.Pairwise.cons ?_ (ih (a.rto + 1) h4)
    intro b hb
    have := chainFrom_le rest (a.rto + 1) h4 b hb
    omega

theorem chainFrom_append_one :
    ∀ (rs : List SERFrameRange) (s : Nat) (r : SERFrameRange),
    chainFrom s rs → r.rfrom = s + (rs.map (·.count)).sum →
    r.rfrom ≤ r.rto → r.count = 1 + (r.rto - r.rfrom) →
    chainFrom s (rs ++ [r]) := by
  intro rs
  induction rs with
  | nil =>
    intro s r _ hf hle hcnt
    simp only [List.nil_append]
    exact ⟨by simpa using hf, hle, by omega, trivial⟩
  | cons a rest ih =>
    intro s r hc hf hle hcnt
    obtain ⟨h1, h2, h3, h4⟩ := hc
    refine ⟨h1, h2, h3, ih (a.rto + 1) r h4 ?_ hle hcnt⟩
    simp only [List.map_cons, List.sum_cons] at hf
    omega

theorem chainFrom_last_to :
    ∀ (rs : List SERFrameRange) (s : Nat) (r : SERFrameRange),
    chainFrom s (rs ++ [r]) →
    r.rto + 1 = s + ((rs ++ [r]).map (·.count)).sum := by
  intro rs
  induction rs with
  | nil =>
    intro s r hc
    obtain ⟨h1, h2, h3, _⟩ := hc
    simp only [List.nil_append, List.map_cons, List.map_nil, List.sum_cons,
      List.sum_nil]
    omega
  | cons a rest ih =>
    intro s r hc
    obtain ⟨h1, h2, h3, h4⟩ := hc
    have := ih (a.rto + 1) r h4
    simp only [List.cons_append, List.map_cons, List.sum_cons] at *
    omega

theorem chainFrom_extend_last :
    ∀ (rs : List SERFrameRange) (s : Nat) (prev : SERFrameRange) (T : Nat),
    chainFrom s (rs ++ [prev]) → prev.rto ≤ T →
    chainFrom s (rs ++ [⟨prev.rfrom, T, 1 + (T - prev.rfrom)⟩]) := by
  intro rs
  induction rs with
  | nil =>
    intro s prev T hc hT
    obtain ⟨h1, h2, _, _⟩ := hc
    refine ⟨h1, ?_, ?_, trivial⟩
    · show prev.rfrom ≤ T
      omega
    · show 1 + (T - prev.rfrom) = T - prev.rfrom + 1
      omega
  | cons a rest ih =>
    intro s prev T hc hT
    obtain ⟨h1, h2, h3, h4⟩ := hc
    exact ⟨h1, h2, h3, ih (a.rto + 1) prev T h4 hT⟩

theorem getLast?_decomp :
    ∀ (l : List SERFrameRange) (x : SERFrameRange),
    l.getLast? = some x → l = l.dropLast ++ [x] := by
  intro l
  induction l with
  | nil => intro x hx; cases hx
  | cons a rest ih =>
    intro x hx
    match rest, hx with
    | [], hx =>
      simp only [List.getLast?_singleton, Option.some.injEq] at hx
      simp [hx]
    | b :: rest', hx =>
      rw [List.getLast?_cons_cons] at hx
      have := ih x hx
      simp only [List.dropLast_cons₂, List.cons_append]
      exact congrArg (a :: ·) this

/-! ### Chain invariants of the three split modes -/

theorem splitCountLoop_chain (fc fpm : Nat) (hfpm : 1 ≤ fpm) :
    ∀ (k i : Nat) (acc : List SERFrameRange) (fa : Nat),
    chainFrom 0 acc → (acc.map (·.count)).sum = fa → fa = i * fpm →
    chainFrom 0 (splitCountLoop fc fpm k i acc fa).1 ∧
    ((splitCountLoop fc fpm k i acc fa).1.map (·.count)).sum =
      (splitCountLoop fc fpm k i acc fa).2 := by
  intro k
  induction k with
  | zero =>
    intro i acc fa hc hs _
    simp only [splitCountLoop]
    exact ⟨hc, hs⟩
  | succ k ih =>
    intro i acc fa hc hs hfa
    simp only [splitCountLoop]
    split_ifs with hbr
    · exact ⟨hc, hs⟩
    · have hmul : (i + 1) * fpm = i * fpm + fpm := by ring
      apply ih (i + 1)
      · apply chainFrom_append_one _ _ _ hc
        · show i * fpm = 0 + (acc.map (·.count)).sum
          omega
        · show i * fpm ≤ i * fpm + fpm - 1
          omega
        · show 1 + (i * fpm + fpm - 1 - i * fpm) =
            1 + ((i * fpm + fpm - 1) - i * fpm)
          rfl
      · simp only [List.map_append, List.sum_append, List.map_cons,
          List.map_nil, List.sum_cons, List.sum_nil]
        omega
      · omega

theorem splitModeCount_chain (movie : SERMovie) (sc : Nat)
    (rs : List SERFrameRange) (h : splitModeCount movie sc = .ok rs) :
    chainFrom 0 rs := by
  simp only [splitModeCount, MIN_SPLIT_FRAMES_PER_CHUNCK, MAX_SPLIT_COUNT] at h
  split_ifs at h with h50 hfpm hfa hassert hmin
  · -- remainder below the minimum: merged into the previous range
    obtain ⟨hchain, hsum⟩ := splitCountLoop_chain movie.header.uiFrameCount
      (movie.header.uiFrameCount / sc) (by omega) sc 0 [] 0 trivial rfl
      (by ring)
    cases hlast : (splitCountLoop movie.header.uiFrameCount
        (movie.header.uiFrameCount / sc) sc 0 [] 0).1.getLast? with
    | none => rw [hlast] at h; exact Except.noConfusion h
    | some prev =>
      rw [hlast] at h
      simp only [] at h
      split_ifs at h with hprev
      cases h
      have hdec := getLast?_decomp _ prev hlast
      rw [hdec] at hchain hsum
      have hto := chainFrom_last_to _ 0 prev hchain
      apply chainFrom_extend_last _ 0 prev _ hchain
      omega
  · -- remainder kept as its own range
    obtain ⟨hchain, hsum⟩ := splitCountLoop_chain movie.header.uiFrameCount
      (movie.header.uiFrameCount / sc) (by omega) sc 0 [] 0 trivial rfl
      (by ring)
    cases h
    apply chainFrom_append_one _ _ _ hchain
    · show (splitCountLoop movie.header.uiFrameCount
        (movie.header.uiFrameCount / sc) sc 0 [] 0).2 = 0 + _
      omega
    · show (splitCountLoop movie.header.uiFrameCount
        (movie.header.uiFrameCount / sc) sc 0 [] 0).2 ≤
        movie.header.uiFrameCount - 1
      omega
    · rfl
  · -- the loop already covered everything
    obtain ⟨hchain, hsum⟩ := splitCountLoop_chain movie.header.uiFrameCount
      (movie.header.uiFrameCount / sc) (by omega) sc 0 [] 0 trivial rfl
      (by ring)
    cases h
    exact hchain

theorem splitModeFramesLoop_chain (fc amt : Nat) :
    ∀ (fuel : Nat) (acc : List SERFrameRange) (fa lfa : Nat)
      (rs : List SERFrameRange),
    chainFrom 0 acc → (acc.map (·.count)).sum = fa →
    (0 < fa → lfa + 1 = fa) →
    splitModeFramesLoop fc amt fuel acc fa lfa = .ok rs →
    chainFrom 0 rs := by
  intro fuel
  induction fuel with
  | zero =>
    intro acc fa lfa rs _ _ _ h
    exact Except.noConfusion h
  | succ fuel ih =>
    intro acc fa lfa rs hc hs h1 h
    simp only [splitModeFramesLoop] at h
    have hf : (if fa = 0 then 0 else lfa + 1) = fa := by
      by_cases hz : fa = 0
      · simp [hz]
      · rw [if_neg hz]; omega
    rw [hf] at h
    generalize hT : (if fa + amt - 1 > fc - 1 then fc - 1
      else fa + amt - 1) = T at h
    split_ifs at h with hfa hbreak hassert hcap
    · cases h; exact hc
    · apply ih (acc ++ [⟨fa, T, 1 + (T - fa)⟩]) (fa + (1 + (T - fa))) T rs
      · apply chainFrom_append_one _ _ _ hc
        · show fa = 0 + (acc.map (·.count)).sum
          omega
        · show fa ≤ T
          omega
        · rfl
      · simp only [List.map_append, List.sum_append, List.map_cons,
          List.map_nil, List.sum_cons, List.sum_nil]
        omega
      · omega
      · exact h
    · cases h; exact hc

/-- Invariant of the ByDuration walk state: the closed ranges are a
contiguous chain from frame 0 and the open range starts right after them. -/
def SecsInv (s : SecsState) : Prop :=
  chainFrom 0 s.closed ∧ (s.closed.map (·.count)).sum = s.curFrom ∧ s.curTo = 0

theorem splitSecsClose_inv (max_t : Int) (i : Nat) (s : SecsState)
    (frame_t : Int) (s' : SecsState)
    (h : splitSecsClose max_t i s frame_t = .ok s') (hs : SecsInv s) :
    SecsInv s' := by
  simp only [splitSecsClose] at h
  obtain ⟨hc, hsum, hto⟩ := hs
  generalize hI : (if s.elapsed > max_t then i - 1 else i) = I at h
  split_ifs at h with he hassert hcap hmin
  · cases h
    refine ⟨?_, ?_, rfl⟩
    · apply chainFrom_append_one _ _ _ hc
      · show s.curFrom = 0 + (s.closed.map (·.count)).sum
        omega
      · show s.curFrom ≤ I
        omega
      · rfl
    · show ((s.closed ++
          [(⟨s.curFrom, I, 1 + (I - s.curFrom)⟩ : SERFrameRange)]).map
        (·.count)).sum = I + 1
      simp only [List.map_append, List.sum_append, List.map_cons,
        List.map_nil, List.sum_cons, List.sum_nil]
      omega
  · cases h
    exact ⟨hc, hsum, hto⟩

theorem splitSecsStep_inv (movie : SERMovie) (max_t : Int) (i : Nat)
    (s s' : SecsState) (h : splitSecsStep movie max_t i s = .ok s')
    (hs : SecsInv s) (hi0 : i = 0 → s.curFrom = 0) : SecsInv s' := by
  simp only [splitSecsStep] at h
  obtain ⟨hc, hsum, hto⟩ := hs
  split_ifs at h with hd ht hiz hieq hprev hgap
  · -- i = 0: the current range is (re)started at frame 0
    refine splitSecsClose_inv _ i _ _ s' h ⟨hc, ?_, hto⟩
    show (s.closed.map (·.count)).sum = 0
    rw [hsum, hi0 hiz]
  · cases h
    exact ⟨hc, hsum, hto⟩
  · exact splitSecsClose_inv _ i _ _ s' h ⟨hc, hsum, hto⟩
  · exact splitSecsClose_inv _ i _ _ s' h ⟨hc, hsum, hto⟩

theorem splitSecsWalk_inv (movie : SERMovie) (max_t : Int) :
    ∀ (r i : Nat) (s s' : SecsState),
    splitSecsWalk movie max_t i r s = .ok s' → SecsInv s →
    (i = 0 → s.curFrom = 0) → SecsInv s' := by
  intro r
  induction r with
  | zero =>
    intro i s s' h hs _
    simp only [splitSecsWalk] at h
    cases h
    exact hs
  | succ r ih =>
    intro i s s' h hs hi0
    simp only [splitSecsWalk] at h
    cases hstep : splitSecsStep movie max_t i s with
    | error e => rw [hstep] at h; exact Except.noConfusion h
    | ok s1 =>
      rw [hstep] at h
      exact ih (i + 1) s1 s' h
        (splitSecsStep_inv movie max_t i s s1 hstep hs hi0)
        (fun hh => absurd hh (by omega))

theorem splitSecsTrailing_chain (movie : SERMovie) (min_t : Int)
    (last_movie_frame : Nat) (s : SecsState) (rs : List SERFrameRange)
    (ds : List Int)
    (h : splitSecsTrailing movie min_t last_movie_frame s = .ok (rs, ds))
    (hs : SecsInv s) : chainFrom 0 rs := by
  simp only [splitSecsTrailing] at h
  obtain ⟨hc, hsum, _⟩ := hs
  split_ifs at h with hcond hassert hmin
  · -- trailing chunk merged into the previous range
    cases hlast : s.closed.getLast? with
    | none => rw [hlast] at h; exact Except.noConfusion h
    | some prev =>
      rw [hlast] at h
      simp only [] at h
      split_ifs at h with hprev
      simp only [Except.ok.injEq, Prod.mk.injEq] at h
      obtain ⟨h1, _⟩ := h
      subst h1
      have hdec := getLast?_decomp s.closed prev hlast
      rw [hdec] at hc hsum
      have hto := chainFrom_last_to s.closed.dropLast 0 prev hc
      apply chainFrom_extend_last s.closed.dropLast 0 prev _ hc
      omega
  · -- trailing chunk appended
    simp only [Except.ok.injEq, Prod.mk.injEq] at h
    obtain ⟨h1, _⟩ := h
    subst h1
    apply chainFrom_append_one _ _ _ hc
    · show s.curFrom = 0 + (s.closed.map (·.count)).sum
      omega
    · show s.curFrom ≤ last_movie_frame
      omega
    · rfl
  · -- trailing block skipped
    simp only [Except.ok.injEq, Prod.mk.injEq] at h
    obtain ⟨h1, _⟩ := h
    subst h1
    exact hc

/-! ### The final verification loop and the C2 theorem -/

theorem splitFinalCheckLoop_sum (movie : SERMovie) :
    ∀ (pairs : List (SERFrameRange × Int)) (tot tot' : Nat),
    splitFinalCheckLoop movie pairs tot = .ok tot' →
    tot' = tot + (pairs.map (fun p => p.1.count)).sum := by
  intro pairs
  induction pairs with
  | nil =>
    intro tot tot' h
    simp only [splitFinalCheckLoop] at h
    cases h
    simp
  | cons p rest ih =>
    intro tot tot' h
    obtain ⟨r, d⟩ := p
    simp only [splitFinalCheckLoop] at h
    split_ifs at h with h0 hneg hasrt
    · have := ih (tot + r.count) tot' h
      simp only [List.map_cons, List.sum_cons]
      omega
    · have := ih (tot + r.count) tot' h
      simp only [List.map_cons, List.sum_cons]
      omega
    · have := ih (tot + r.count) tot' h
      simp only [List.map_cons, List.sum_cons]
      omega

theorem splitFinalCheck_ok (movie : SERMovie) (rs : List SERFrameRange)
    (ds : List Int) (rs' : List SERFrameRange)
    (h : splitFinalCheck movie rs ds = .ok rs') :
    rs' = rs ∧ (rs.map (·.count)).sum = movie.header.uiFrameCount := by
  simp only [splitFinalCheck] at h
  cases hloop : splitFinalCheckLoop movie
    (rs.zip (ds ++ List.replicate rs.length 0)) 0 with
  | error e => rw [hloop] at h; exact Except.noConfusion h
  | ok tot =>
    rw [hloop] at h
    simp only [] at h
    split_ifs at h with htot
    cases h
    have hsum := splitFinalCheckLoop_sum movie _ 0 tot hloop
    have hmap : ((rs.zip (ds ++ List.replicate rs.length 0)).map
        (fun p => p.1.count)).sum = (rs.map (·.count)).sum := by
      have hfst : (rs.zip (ds ++ List.replicate rs.length 0)).map Prod.fst = rs :=
        List.map_fst_zip _ _ (by
          rw [List.length_append, List.length_replicate]
          omega)
      calc ((rs.zip (ds ++ List.replicate rs.length 0)).map
            (fun p => p.1.count)).sum
          = (((rs.zip (ds ++ List.replicate rs.length 0)).map Prod.fst).map
              (·.count)).sum := by rw [List.map_map]; rfl
        _ = (rs.map (·.count)).sum := by rw [hfst]
    refine ⟨rfl, ?_⟩
    omega

/-- Claim C2: every split plan the planner returns successfully — in any
of the three modes — is a list of contiguous, ordered, pairwise-disjoint
ranges whose union covers the frame indices `[0, frameCount-1]` with each
frame in exactly one range, and whose counts sum to the frame count.  The
planner (`determineSplitRanges`) only computes the plan; extraction is
performed afterwards by separate calls, so the postcondition holds before
any extraction is executed.  The frame-count bound scopes the theorem to
headers where the C `int` arithmetic of the planner cannot overflow. -/
theorem C2_split_plan_partitions (movie : SERMovie)
    (split_mode split_amount : Int) (ranges : List SERFrameRange)
    (hfc : movie.header.uiFrameCount < 2147483648)
    (hok : determineSplitRanges movie split_mode split_amount = .ok ranges) :
    chainFrom 0 ranges ∧
    (ranges.map (·.count)).sum = movie.header.uiFrameCount ∧
    (∀ f, f < movie.header.uiFrameCount →
      ranges.countP (fun r => decide (r.rfrom ≤ f) && decide (f ≤ r.rto)) = 1) ∧
    List.Pairwise (fun a b => a.rto < b.rfrom) ranges ∧
    ranges ≠ [] := by
  have hmain : ∀ rs0 : List SERFrameRange, ∀ ds0 : List Int,
      chainFrom 0 rs0 → splitFinalCheck movie rs0 ds0 = .ok ranges →
      0 < movie.header.uiFrameCount →
      chainFrom 0 ranges ∧
      (ranges.map (·.count)).sum = movie.header.uiFrameCount ∧
      (∀ f, f < movie.header.uiFrameCount →
        ranges.countP (fun r => decide (r.rfrom ≤ f) && decide (f ≤ r.rto)) = 1) ∧
      List.Pairwise (fun a b => a.rto < b.rfrom) ranges ∧
      ranges ≠ [] := by
    intro rs0 ds0 hch hfin hpos
    obtain ⟨rfl, hsum⟩ := splitFinalCheck_ok movie rs0 ds0 ranges hfin
    refine ⟨hch, hsum, ?_, chainFrom_pairwise _ 0 hch, ?_⟩
    · intro f hf
      rw [chainFrom_count_cover _ 0 hch f, hsum, if_pos (by omega)]
    · intro hnil
      rw [hnil] at hsum
      simp at hsum
      omega
  simp only [determineSplitRanges] at hok
  split_ifs at hok with hval hmode hfew hm1 hm2
  · -- ByCount
    have hpos : 0 < movie.header.uiFrameCount := by
      simp only [MIN_SPLIT_FRAMES_PER_CHUNCK] at hfew
      omega
    cases hsc : splitModeCount movie split_amount.toNat with
    | error e => rw [hsc] at hok; exact Except.noConfusion hok
    | ok rs0 =>
      rw [hsc] at hok
      simp only [] at hok
      exact hmain rs0 _ (splitModeCount_chain movie _ rs0 hsc) hok hpos
  · -- ByFrameLength
    have hpos : 0 < movie.header.uiFrameCount := by
      simp only [MIN_SPLIT_FRAMES_PER_CHUNCK] at hfew
      omega
    cases hsf : splitModeFrames movie split_amount with
    | error e => rw [hsf] at hok; exact Except.noConfusion hok
    | ok rs0 =>
      rw [hsf] at hok
      simp only [] at hok
      have hch : chainFrom 0 rs0 := by
        simp only [splitModeFrames] at hsf
        split_ifs at hsf with hamt
        exact splitModeFramesLoop_chain movie.header.uiFrameCount
          split_amount.toNat (movie.header.uiFrameCount + 1) [] 0 0 rs0
          trivial rfl (by omega) hsf
      exact hmain rs0 _ hch hok hpos
  · -- ByDuration
    have hpos : 0 < movie.header.uiFrameCount := by
      simp only [MIN_SPLIT_FRAMES_PER_CHUNCK] at hfew
      omega
    cases hss : splitModeSecs movie split_amount with
    | error e => rw [hss] at hok; exact Except.noConfusion hok
    | ok p =>
      obtain ⟨rs0, ds0⟩ := p
      rw [hss] at hok
      simp only [] at hok
      have hch : chainFrom 0 rs0 := by
          simp only [splitModeSecs] at hss
          cases hw : splitSecsWalk movie split_amount 0
              movie.header.uiFrameCount
              { closed := [], durations := [], curFrom := 0, curTo := 0,
                prev_t := 0, elapsed := 0 } with
          | error e => rw [hw] at hss; exact Except.noConfusion hss
          | ok s =>
            rw [hw] at hss
            simp only [] at hss
            have hsinv : SecsInv s :=
              splitSecsWalk_inv movie split_amount
                movie.header.uiFrameCount 0 _ s hw
                ⟨trivial, rfl, rfl⟩ (fun _ => rfl)
            cases htr : splitSecsTrailing movie (split_amount / 10)
                (movie.header.uiFrameCount - 1) s with
            | error e => rw [htr] at hss; exact Except.noConfusion hss
            | ok q =>
              obtain ⟨rs1, ds1⟩ := q
              rw [htr] at hss
              simp only [] at hss
              split_ifs at hss with hcap
              obtain ⟨h1, _⟩ : rs1 = rs0 ∧ ds1 = ds0 := by
                simp only [Except.ok.injEq, Prod.mk.injEq] at hss
                exact hss
              subst h1
              exact splitSecsTrailing_chain movie _ _ s rs1 ds1 htr hsinv
      exact hmain rs0 ds0 hch hok hpos

/-- Strictly increasing frame timestamps, one second apart, starting at
the Unix epoch expressed in the native 100 ns unit. -/
def wsDates : List Nat :=
  (List.range 151).map (fun i => (62135596800 + i) * 10000000)

/-- A 151-frame 1x1 monochrome 8-bit header. -/
def wsHeader : SERHeader :=
  { sFileID := serFileId, uiLuID := 0, uiColorID := 0, uiLittleEndian := 0
    uiImageWidth := 1, uiImageHeight := 1, uiPixelDepth := 8
    uiFrameCount := 151
    sObserver := List.replicate 40 0, sInstrument := List.replicate 40 0
    sTelescope := List.replicate 40 0, ulDateTime := 0, ulDateTime_UTC := 0 }

/-- A complete 151-frame movie over `wsHeader`: header, one byte per
frame, then the timestamp trailer. -/
def wsMovie : SERMovie :=
  { header := wsHeader
    fileBytes := encodeHeader wsHeader ++
      (List.replicate 151 9 ++ (wsDates.map u64LE).flatten)
    filesize := 1537, invert_endianness := false, warnings := 0
    duration := 0, firstFrameDate := 0, lastFrameDate := 0 }

set_option maxRecDepth 40000 in
/-- Witness for C2: splitting the 151-frame movie in the ByFrameLength
mode at 100 frames per chunk yields the two-range plan
`[0, 99] ++ [100, 150]`, and the theorem's postcondition holds for it. -/
theorem C2_split_plan_partitions_witness :
    determineSplitRanges wsMovie 2 100 =
      .ok [(⟨0, 99, 100⟩ : SERFrameRange), (⟨100, 150, 51⟩ : SERFrameRange)] ∧
    wsMovie.header.uiFrameCount < 2147483648 ∧
    chainFrom 0 [(⟨0, 99, 100⟩ : SERFrameRange),
      (⟨100, 150, 51⟩ : SERFrameRange)] := by
  have h : determineSplitRanges wsMovie 2 100 =
      .ok [(⟨0, 99, 100⟩ : SERFrameRange),
        (⟨100, 150, 51⟩ : SERFrameRange)] := by rfl
  exact ⟨h, by decide,
    (C2_split_plan_partitions wsMovie 2 100 _ (by decide) h).1⟩

end SERUtils
